import Mathlib

/-!
# Verification of the Battleship Infinity core engine

A shallow embedding of the grid/chunk data model and the action-processing
state machine of the battleship repository (`src/utils/grid.ts`,
`src/contexts/BattleContext.tsx`, `src/types/index.ts`), together with proofs
of the specification's testable properties.

Modelling conventions:
* JavaScript numbers carrying timestamps or coordinates are modelled as `Int`;
  the decaying `activityCount` and all heat-map arithmetic are modelled as `ℚ`
  (the source performs ordinary arithmetic on them).
* The fixed 1000×1000 cell array of one team is modelled as a total function
  `Int → Int → CellState` together with the bounds-aware accessor `cellAt?`:
  indexing a JS array outside `[0, 1000)` yields `undefined`, and reading a
  property of `undefined` throws; a thrown `TypeError` is modelled by `none`
  in the `Option` result of `processAction`.
* React state-updater functions (`setBlueTeamGrid(prev => …)`) are modelled as
  applied synchronously in dispatch order, while plain reads of the captured
  state variables read the pre-action snapshot, exactly as the closures do.
* `Date.now()` is passed in as the parameter `now`; `generateId()` as `genId`.
-/

namespace Battleship

attribute [local semireducible] Rat.add Rat.mul Rat.sub Rat.inv Rat.ofScientific

/-- `Team` from src/types (part_006): `'red' | 'blue'`. -/
inductive Team where
  | red : Team
  | blue : Team
deriving DecidableEq, Repr

/-- The ternary `team === 'blue' ? 'red' : 'blue'` used throughout the FIRE
path (part_002 lines 681, 785). -/
def oppositeTeam (t : Team) : Team :=
  if t = Team.blue then Team.red else Team.blue

/-- A cell coordinate pair `{ x, y }` as used in `Ship.cells` and `shipCells`. -/
structure Coord where
  x : Int
  y : Int
deriving DecidableEq, Repr

/-- `CellState` from src/types (part_006 lines 551-559). An absent
`cooldownUntil` property is `none`. -/
structure CellState where
  occupied : Bool
  hit : Bool
  ship : Option (String × String)
  cooldownUntil : Option Int
deriving DecidableEq, Repr

/-- `Ship` from src/types (part_006). -/
structure Ship where
  id : String
  owner : String
  cells : List Coord
  hits : Nat
  destroyed : Bool
deriving DecidableEq, Repr

/-- `Chunk` from src/types (part_006). -/
structure Chunk where
  x : Int
  y : Int
  heatLevel : Nat
  lastActivity : Int
  activityCount : ℚ
deriving DecidableEq, Repr

instance : Inhabited Chunk := ⟨⟨0, 0, 0, 0, 0⟩⟩

/-- `GridStats` from src/types (part_006), base fields only (the optional
derived fields are computed by `calculateAdditionalStats`). -/
structure GridStats where
  totalShips : Nat
  totalHits : Nat
  totalChunks : Nat
deriving DecidableEq, Repr

/-- The 1000×1000 cell array of one team, as a total function; all access in
the engine goes through `cellAt?` / `setCell` below. -/
def CellGrid : Type := Int → Int → CellState

/-- `TeamGridState` from src/types (part_006). -/
structure TeamGridState where
  grid : CellGrid
  ships : List Ship
  chunks : List Chunk
  stats : GridStats

/-- The two independent team grids held by `BattleProvider`
(part_002 lines 364-404). -/
structure BattleState where
  blue : TeamGridState
  red : TeamGridState

/-- Selects a team's `TeamGridState`, mirroring the
`team === 'blue' ? blueTeamGrid : redTeamGrid` reads. -/
def BattleState.team (s : BattleState) : Team → TeamGridState
  | Team.blue => s.blue
  | Team.red => s.red

/-- Mirrors dispatching a state-updater to `setBlueTeamGrid` or
`setRedTeamGrid` depending on the team. -/
def modifyTeam (t : Team) (f : TeamGridState → TeamGridState) (s : BattleState) :
    BattleState :=
  match t with
  | Team.blue => { s with blue := f s.blue }
  | Team.red => { s with red := f s.red }

/-! ## Constants (src/utils/grid.ts, part_002 lines 88-98, 286-292) -/

def GRID_SIZE : Int := 1000
def CHUNK_SIZE : Int := 10
def CELLS_PER_CHUNK : Int := 100
def TOTAL_CHUNKS : Nat := 100
def DESTROYED_TERRITORY_COOLDOWN : Int := 10000
def DECAY_INTERVAL : Int := 10000
def ACTIVITY_LIFETIME : Int := 120000
def ACTIVITY_EXTENDED_LIFETIME : Int := 240000
def NO_DECAY_PERIOD : Int := 60000
def SUPER_SLOW_DECAY_RATE : ℚ := 0.999
def SLOW_DECAY_RATE : ℚ := 0.98
def FINAL_DECAY_RATE : ℚ := 0.95

/-! ## Grid access -/

/-- Bounds test `x >= 0 && x < GRID_SIZE && y >= 0 && y < GRID_SIZE`. -/
def inBoundsB (x y : Int) : Bool :=
  decide (0 ≤ x) && decide (x < GRID_SIZE) && decide (0 ≤ y) && decide (y < GRID_SIZE)

/-- `grid[y][x]` as a JS expression: `some` cell when `(x, y)` addresses one of
the 1000×1000 entries, `none` (JS `undefined`, or a throw on `grid[y]` for a
row index out of range) otherwise. -/
def cellAt? (g : CellGrid) (x y : Int) : Option CellState :=
  if inBoundsB x y then some (g x y) else none

/-- `newGrid[y][x] = c` (the engine only ever writes in-bounds cells). -/
def setCell (g : CellGrid) (x y : Int) (c : CellState) : CellGrid :=
  fun x' y' => if x' = x ∧ y' = y then c else g x' y'

/-- `generateEmptyGrid` (part_002 lines 101-112): every cell
`{ occupied: false, hit: false }`. -/
def generateEmptyGrid : CellGrid :=
  fun _ _ => { occupied := false, hit := false, ship := none, cooldownUntil := none }

/-- `getChunkFromCoords` (part_002 lines 115-119); `Math.floor` division. -/
def getChunkFromCoords (x y : Int) : Int × Int :=
  (Int.fdiv x CELLS_PER_CHUNK, Int.fdiv y CELLS_PER_CHUNK)

/-! ## Ship-placement validity (part_002 lines 122-135) -/

/-- The cooldown conjunct
`(!grid[y][x].cooldownUntil || grid[y][x].cooldownUntil < now)`:
an absent property and the number `0` are both falsy. -/
def cooldownOkB (cell : CellState) (now : Int) : Bool :=
  match cell.cooldownUntil with
  | none => true
  | some t => decide (t = 0) || decide (t < now)

/-- One iteration of the `cells.every` predicate in `isValidShipPlacement`,
with JS evaluation order: the bounds conjuncts short-circuit before the
`grid[y][x]` accesses, so an out-of-bounds cell yields `false` rather than a
throw (`none`). -/
def checkCell (grid : CellGrid) (now : Int) (c : Coord) : Option Bool :=
  if inBoundsB c.x c.y then
    match cellAt? grid c.x c.y with
    | none => none
    | some cell => some (!cell.occupied && cooldownOkB cell now)
  else some false

/-- `isValidShipPlacement` (part_002 lines 122-135): `cells.every(...)`,
stopping at the first failing cell; a throw aborts the whole call. -/
def isValidShipPlacement (grid : CellGrid) (cells : List Coord) (now : Int) :
    Option Bool :=
  match cells with
  | [] => some true
  | c :: rest =>
    match checkCell grid now c with
    | none => none
    | some false => some false
    | some true => isValidShipPlacement grid rest now

/-- The value `isValidShipPlacement` computes when it does not throw: every
cell in bounds, unoccupied, and with no active cooldown. -/
def validCellB (grid : CellGrid) (now : Int) (c : Coord) : Bool :=
  inBoundsB c.x c.y && !(grid c.x c.y).occupied && cooldownOkB (grid c.x c.y) now

/-! ## Heat levels (`updateHeatLevels`, part_002 lines 723-753) -/

/-- Descending comparison on `activityCount`, the comparator
`(a, b) => b.activityCount - a.activityCount`. -/
def chunkGE (a b : Chunk) : Prop := b.activityCount ≤ a.activityCount

instance : DecidableRel chunkGE := fun a b =>
  inferInstanceAs (Decidable (b.activityCount ≤ a.activityCount))

instance : IsTotal Chunk chunkGE :=
  ⟨fun a b => (le_total b.activityCount a.activityCount).imp id id⟩

instance : IsTrans Chunk chunkGE :=
  ⟨fun _ _ _ hab hbc => le_trans hbc hab⟩

/-- `Math.floor` on a non-negative JS number, as used for the hot/warm counts. -/
def jsFloorNat (q : ℚ) : Nat := (Rat.floor q).toNat

/-- `chunks.filter(chunk => chunk.activityCount > 0)`. -/
def activeOf (chunks : List Chunk) : List Chunk :=
  chunks.filter (fun c => decide (0 < c.activityCount))

/-- `[...activeChunks].sort((a, b) => b.activityCount - a.activityCount)`. -/
def sortedOf (chunks : List Chunk) : List Chunk :=
  (activeOf chunks).insertionSort chunkGE

/-- `Math.max(1, Math.floor(activeChunks.length * 0.2))`. -/
def hotCountOf (chunks : List Chunk) : Nat :=
  max 1 (jsFloorNat (((activeOf chunks).length : ℚ) * 0.2))

/-- `Math.max(2, Math.floor(activeChunks.length * 0.3))`. -/
def warmCountOf (chunks : List Chunk) : Nat :=
  max 2 (jsFloorNat (((activeOf chunks).length : ℚ) * 0.3))

/-- `sortedChunks[Math.min(hotCount - 1, sortedChunks.length - 1)].activityCount`. -/
def hotThresholdOf (chunks : List Chunk) : ℚ :=
  ((sortedOf chunks).getD
    (min (hotCountOf chunks - 1) ((sortedOf chunks).length - 1)) default).activityCount

/-- `sortedChunks[Math.min(hotCount + warmCount - 1, sortedChunks.length - 1)].activityCount`. -/
def warmThresholdOf (chunks : List Chunk) : ℚ :=
  ((sortedOf chunks).getD
    (min (hotCountOf chunks + warmCountOf chunks - 1)
      ((sortedOf chunks).length - 1)) default).activityCount

/-- `const maxActivity = sortedChunks[0].activityCount`, then
`maxActivity * 0.03`. -/
def minThresholdOf (chunks : List Chunk) : ℚ :=
  ((sortedOf chunks).headD default).activityCount * 0.03

/-- The per-chunk assignment in the final `chunks.map` of `updateHeatLevels`. -/
def heatAssign (hotT warmT minT : ℚ) (chunk : Chunk) : Chunk :=
  if hotT ≤ chunk.activityCount ∧ 0 < chunk.activityCount then
    { chunk with heatLevel := 3 }
  else if warmT ≤ chunk.activityCount ∧ 0 < chunk.activityCount then
    { chunk with heatLevel := 2 }
  else if minT ≤ chunk.activityCount then
    { chunk with heatLevel := 1 }
  else
    { chunk with heatLevel := 0 }

/-- `updateHeatLevels` (part_002 lines 723-753). -/
def updateHeatLevels (chunks : List Chunk) : List Chunk :=
  if (activeOf chunks).isEmpty then chunks
  else
    chunks.map
      (heatAssign (hotThresholdOf chunks) (warmThresholdOf chunks) (minThresholdOf chunks))

/-! ## The specification's reference heat algorithm (§4.3)

A second definition of heat recomputation, written from the specification's
words rather than from the source, for the refinement claim comparing the two. -/

/-- Descending comparison on plain activity counts ("sort descending by
`activityCount`"). -/
def ratGE (a b : ℚ) : Prop := b ≤ a

instance : DecidableRel ratGE := fun a b => inferInstanceAs (Decidable (b ≤ a))

instance : IsTotal ℚ ratGE := ⟨fun a b => (le_total b a).imp id id⟩

instance : IsTrans ℚ ratGE := ⟨fun _ _ _ hab hbc => le_trans hbc hab⟩

instance : IsAntisymm ℚ ratGE := ⟨fun _ _ h1 h2 => le_antisymm h2 h1⟩

/-- The spec's `maxActivityCount`: the largest `activityCount` among the given
chunks. -/
def maxActivityCountOf (chunks : List Chunk) : ℚ :=
  chunks.foldr (fun c m => max c.activityCount m) 0

/-- The heat-level recomputation exactly as §4.3 of the specification words
it: filter chunks with `activityCount > 0` (if none, return unchanged); sort
descending; `hotCount = max(1, floor(0.20 * activeCount))`,
`warmCount = max(2, floor(0.30 * activeCount))`; thresholds at the stated
clamped ranks; `minThreshold = 0.03 * maxActivityCount`; assign
`heatLevel = 3` if `activityCount ≥ hotThreshold` (and `> 0`), else `2` if
`≥ warmThreshold`, else `1` if `≥ minThreshold`, else `0`. -/
def recomputeHeatLevelsSpec (chunks : List Chunk) : List Chunk :=
  if (activeOf chunks).isEmpty then chunks
  else
    let activeCount := (activeOf chunks).length
    let hotCount := max 1 (jsFloorNat ((20 / 100 : ℚ) * (activeCount : ℚ)))
    let warmCount := max 2 (jsFloorNat ((30 / 100 : ℚ) * (activeCount : ℚ)))
    let hotThreshold :=
      ((sortedOf chunks).getD
        (min (hotCount - 1) ((sortedOf chunks).length - 1)) default).activityCount
    let warmThreshold :=
      ((sortedOf chunks).getD
        (min (hotCount + warmCount - 1) ((sortedOf chunks).length - 1)) default).activityCount
    let minThreshold := (3 / 100 : ℚ) * maxActivityCountOf (activeOf chunks)
    chunks.map (fun c =>
      if hotThreshold ≤ c.activityCount ∧ 0 < c.activityCount then
        { c with heatLevel := 3 }
      else if warmThreshold ≤ c.activityCount then { c with heatLevel := 2 }
      else if minThreshold ≤ c.activityCount then { c with heatLevel := 1 }
      else { c with heatLevel := 0 })

/-! ## Chunk activity (`updateChunkActivity`, part_002 lines 677-720) -/

/-- `chunks.findIndex(...)`: index of the first matching element, `none`
standing for the JS `-1`. -/
def findChunkIdx (p : Chunk → Bool) : List Chunk → Option Nat
  | [] => none
  | c :: cs => if p c then some 0 else (findChunkIdx p cs).map (· + 1)

/-- The body of the updater passed to `setBlueTeamGrid`/`setRedTeamGrid` by
`updateChunkActivity`: find the chunk, bump
`activityCount: (activityCount || 0) + 1`, stamp `lastActivity`, then run
`updateHeatLevels` on the (possibly unchanged) array. -/
def recordChunkActivity (now : Int) (x y : Int) (chunks : List Chunk) : List Chunk :=
  let chunkX := (getChunkFromCoords x y).1
  let chunkY := (getChunkFromCoords x y).2
  let newChunks :=
    match findChunkIdx (fun c => c.x == chunkX && c.y == chunkY) chunks with
    | some i =>
      let c := chunks.getD i default
      chunks.set i
        { c with
          activityCount := (if c.activityCount = 0 then 0 else c.activityCount) + 1,
          lastActivity := now }
    | none => chunks
  updateHeatLevels newChunks

/-- `updateChunkActivity(x, y, team)`: when firing, the *opposite* team's
chunk array is updated. -/
def updateChunkActivity (now : Int) (x y : Int) (team : Team) (s : BattleState) :
    BattleState :=
  let targetTeam := oppositeTeam team
  modifyTeam targetTeam
    (fun prev => { prev with chunks := recordChunkActivity now x y prev.chunks }) s

/-! ## Cooldown on destruction (`applyCooldownToShipArea`, part_002 lines 446-498) -/

/-- Membership in the deduplicated `cooldownCells` set actually written:
the ship cells together with every surrounding cell within a 1-cell radius,
where the apply-loop's bounds check discards anything outside the grid.
A point is written iff it is in bounds and within Chebyshev distance 1 of some
ship cell (each in-bounds ship cell is its own `dx = dy = 0` neighbour). -/
def inCooldownAreaB (shipCells : List Coord) (x y : Int) : Bool :=
  inBoundsB x y &&
    shipCells.any (fun c => decide ((x - c.x).natAbs ≤ 1) && decide ((y - c.y).natAbs ≤ 1))

/-- `applyCooldownToShipArea`'s grid updater: every cell of the cooldown set
becomes `{ ...newGrid[y][x], cooldownUntil: cooldownEndTime }` with
`cooldownEndTime = now + DESTROYED_TERRITORY_COOLDOWN`. -/
def applyCooldownToShipArea (now : Int) (shipCells : List Coord) (g : CellGrid) :
    CellGrid :=
  let cooldownEndTime := now + DESTROYED_TERRITORY_COOLDOWN
  fun x y =>
    if inCooldownAreaB shipCells x y then
      { g x y with cooldownUntil := some cooldownEndTime }
    else g x y

/-! ## Heat decay (the `setInterval` body, part_002 lines 552-674) -/

/-- The `decayRate` selected by age bucket inside the decay tick. -/
def decayRateFor (timeSinceActivity : Int) : ℚ :=
  if timeSinceActivity < ACTIVITY_LIFETIME then SUPER_SLOW_DECAY_RATE
  else if timeSinceActivity < ACTIVITY_EXTENDED_LIFETIME then SLOW_DECAY_RATE
  else FINAL_DECAY_RATE

/-- The per-chunk decay step executed for each chunk of a team on a decay
tick; the source's locals `timeSinceActivity = now - chunk.lastActivity` and
`newActivityCount = chunk.activityCount * decayRate` are written inline. -/
def decayChunk (now : Int) (chunk : Chunk) : Chunk :=
  if 0 < chunk.activityCount then
    if now - chunk.lastActivity ≤ NO_DECAY_PERIOD then chunk
    else
      if chunk.activityCount * decayRateFor (now - chunk.lastActivity) < 0.1 then
        if 0 < chunk.activityCount then
          { chunk with activityCount := 0, heatLevel := 0 }
        else chunk
      else if 0.01 < |chunk.activityCount * decayRateFor (now - chunk.lastActivity)
          - chunk.activityCount| then
        { chunk with activityCount :=
            chunk.activityCount * decayRateFor (now - chunk.lastActivity) }
      else chunk
  else chunk

/-- One decay tick over a team's chunk array: `hasChanges` is set exactly when
some chunk object was replaced (each replacement changes its value), in which
case `updateHeatLevels` runs on the new array; otherwise `prev` is returned. -/
def decayChunks (now : Int) (chunks : List Chunk) : List Chunk :=
  let newChunks := chunks.map (decayChunk now)
  if newChunks = chunks then chunks else updateHeatLevels newChunks

/-- A decay tick applied to both team states (the interval body updates blue
then red; only `chunks` is touched). -/
def decayTick (now : Int) (s : BattleState) : BattleState :=
  { blue := { s.blue with chunks := decayChunks now s.blue.chunks },
    red := { s.red with chunks := decayChunks now s.red.chunks } }

/-! ## Derived stats (`calculateAdditionalStats`, part_002 lines 347-357) -/

/-- `Math.round` on a JS number: round half toward positive infinity. -/
def jsRound (q : ℚ) : Int := Rat.floor (q + 1 / 2)

/-- The triple computed by `calculateAdditionalStats(ships, totalHits)`. -/
def calculateAdditionalStats (ships : List Ship) (totalHits : Nat) :
    Nat × Nat × Int :=
  let destroyedShips := (ships.filter (fun ship => ship.destroyed)).length
  let activeShips := ships.length - destroyedShips
  let hitRatio : Int :=
    if 0 < totalHits then jsRound ((destroyedShips : ℚ) / (totalHits : ℚ) * 100) else 0
  (destroyedShips, activeShips, hitRatio)

/-! ## Actions (`processAction`, part_002 lines 777-981) -/

inductive ActionType where
  | FIRE : ActionType
  | PLACE_SHIP : ActionType
deriving DecidableEq, Repr

/-- `BattleAction` from src/types (part_006). -/
structure BattleAction where
  type : ActionType
  x : Int
  y : Int
  shipId : Option String
  owner : Option String
  shipCells : Option (List Coord)
  timestamp : Int
  team : Option Team

/-- `processAction` (part_002 lines 777-948). Returns `none` when the JS code
would throw (the unguarded `targetGrid[y][x]` / `cell.hit` access in the FIRE
branch), otherwise `some` of the post-action state and the boolean result.
State-updater dispatches are applied in order; plain reads of
`blueTeamGrid`/`redTeamGrid` use the pre-action snapshot `s`. -/
def processAction (now : Int) (genId : String) (s : BattleState) (a : BattleAction) :
    Option (BattleState × Bool) :=
  let actionTeam := a.team.getD Team.blue
  match a.type with
  | ActionType.FIRE =>
    let targetTeam := oppositeTeam actionTeam
    let s1 := updateChunkActivity now a.x a.y actionTeam s
    let targetGrid := (s.team targetTeam).grid
    match cellAt? targetGrid a.x a.y with
    | none => none
    | some cell =>
      if cell.hit then some (s1, false)
      else
        let s2 := modifyTeam targetTeam
          (fun prev =>
            { prev with
              grid := setCell prev.grid a.x a.y { prev.grid a.x a.y with hit := true },
              stats := { prev.stats with totalHits := prev.stats.totalHits + 1 } }) s1
        if cell.occupied && cell.ship.isSome then
          let shipHit : Ship → Bool := fun ship =>
            match cell.ship with
            | some r => ship.id == r.1
            | none => false
          let s3 := modifyTeam targetTeam
            (fun prev =>
              { prev with
                ships := prev.ships.map (fun ship =>
                  if shipHit ship then
                    { ship with
                      hits := ship.hits + 1,
                      destroyed := decide (ship.hits + 1 = ship.cells.length) }
                  else ship) }) s2
          let destroyedLast :=
            ((s2.team targetTeam).ships.filter
              (fun ship => shipHit ship && decide (ship.hits + 1 = ship.cells.length))).getLast?
          match destroyedLast with
          | some dship =>
            if 0 < dship.cells.length then
              some (modifyTeam targetTeam
                (fun prev =>
                  { prev with grid := applyCooldownToShipArea now dship.cells prev.grid })
                s3, true)
            else some (s3, true)
          | none => some (s3, true)
        else some (s2, true)
  | ActionType.PLACE_SHIP =>
    match a.shipCells, a.owner with
    | some shipCells, some owner =>
      if owner = "" then some (s, false)
      else
        let newShip : Ship :=
          { id := match a.shipId with
              | some i => if i = "" then genId else i
              | none => genId,
            owner := owner, cells := shipCells, hits := 0, destroyed := false }
        let targetGrid := (s.team actionTeam).grid
        match isValidShipPlacement targetGrid shipCells now with
        | none => none
        | some false => some (s, false)
        | some true =>
          some (modifyTeam actionTeam
            (fun prev =>
              { prev with
                grid := shipCells.foldl
                  (fun g c =>
                    setCell g c.x c.y
                      { occupied := true, hit := false,
                        ship := some (newShip.id, newShip.owner),
                        cooldownUntil := none }) prev.grid,
                ships := prev.ships ++ [newShip],
                stats := { prev.stats with totalShips := prev.stats.totalShips + 1 } })
            s, true)
    | _, _ => some (s, false)

/-- The contiguous cell list built by `placeShip` (part_002 lines 951-958). -/
def shipCellsFor (x y : Int) (size : Nat) (horizontal : Bool) : List Coord :=
  (List.range size).map (fun (i : Nat) =>
    if horizontal then ⟨x + (i : Int), y⟩ else ⟨x, y + (i : Int)⟩)

/-- `placeShip(x, y, size, horizontal, team)` (part_002 lines 951-970);
`sid` models the `generateId()` passed as `shipId`, `owner` the
`currentPlayer`, `genId` the lazily evaluated fallback inside
`processAction`. -/
def placeShip (now : Int) (sid genId owner : String) (x y : Int) (size : Nat)
    (horizontal : Bool) (team : Team) (s : BattleState) :
    Option (BattleState × Bool) :=
  processAction now genId s
    { type := ActionType.PLACE_SHIP, x := x, y := y, shipId := some sid,
      owner := some owner, shipCells := some (shipCellsFor x y size horizontal),
      timestamp := now, team := some team }

/-- `fireShot(x, y, team)` (part_002 lines 973-981); the FIRE branch never
evaluates `generateId()`, so an arbitrary string is passed. -/
def fireShot (now : Int) (x y : Int) (team : Team) (s : BattleState) :
    Option (BattleState × Bool) :=
  processAction now "" s
    { type := ActionType.FIRE, x := x, y := y, shipId := none, owner := none,
      shipCells := none, timestamp := now, team := some team }

/-! ## Initial state (part_002 lines 364-404) -/

/-- The chunk array built at team-grid initialization:
`x = index % CHUNK_SIZE`, `y = floor(index / CHUNK_SIZE)`. -/
def initChunks : List Chunk :=
  (List.range TOTAL_CHUNKS).map (fun index =>
    { x := ((index % 10 : Nat) : Int), y := ((index / 10 : Nat) : Int),
      heatLevel := 0, lastActivity := 0, activityCount := 0 })

def initTeamGridState : TeamGridState :=
  { grid := generateEmptyGrid, ships := [], chunks := initChunks,
    stats := { totalShips := 0, totalHits := 0, totalChunks := TOTAL_CHUNKS } }

def initState : BattleState :=
  { blue := initTeamGridState, red := initTeamGridState }

/-! ## Concrete states used as witnesses -/

/-- A fresh battle state in which the blue cell `(0, 0)` has already been hit. -/
def exHitState : BattleState :=
  { initState with
    blue := { initTeamGridState with
      grid := fun x y =>
        if x = 0 ∧ y = 0 then
          { occupied := false, hit := true, ship := none, cooldownUntil := none }
        else generateEmptyGrid x y } }

/-- A blue ship of one cell at `(5, 5)`, destroyed by a single hit. -/
def exShip : Ship :=
  { id := "sh1", owner := "ow1", cells := [⟨5, 5⟩], hits := 0, destroyed := false }

/-- A battle state in which blue owns `exShip` at `(5, 5)`. -/
def exShipState : BattleState :=
  { initState with
    blue := { initTeamGridState with
      grid := fun x y =>
        if x = 5 ∧ y = 5 then
          { occupied := true, hit := false, ship := some ("sh1", "ow1"),
            cooldownUntil := none }
        else generateEmptyGrid x y,
      ships := [exShip] } }

/-- A state whose blue cell `(0, 0)` carries an expired cooldown timestamp. -/
def exCooldownState : BattleState :=
  { initState with
    blue := { initTeamGridState with
      grid := fun x y =>
        if x = 0 ∧ y = 0 then
          { occupied := false, hit := false, ship := none,
            cooldownUntil := some 5000 }
        else generateEmptyGrid x y } }

/-- The PLACE_SHIP action dispatched by `placeShip 20000 "s1" "g1" "anon-1"
0 0 2 true Team.blue`. -/
def exPlaceAction : BattleAction :=
  { type := ActionType.PLACE_SHIP, x := 0, y := 0, shipId := some "s1",
    owner := some "anon-1", shipCells := some (shipCellsFor 0 0 2 true),
    timestamp := 20000, team := some Team.blue }

/-- A hot chunk whose last activity is 200 s in the past at time 200000. -/
def exChunkOld : Chunk :=
  { x := 0, y := 0, heatLevel := 3, lastActivity := 0, activityCount := 1 }

/-- A hot chunk still inside the decay grace period at time 200000. -/
def exChunkFresh : Chunk :=
  { x := 0, y := 0, heatLevel := 3, lastActivity := 150000, activityCount := 1 }

/-! ## Basic lemmas about the state helpers -/

theorem oppositeTeam_ne (t : Team) : oppositeTeam t ≠ t := by
  cases t <;> simp [oppositeTeam]

@[simp]
theorem team_modifyTeam_same (t : Team) (f : TeamGridState → TeamGridState)
    (s : BattleState) : (modifyTeam t f s).team t = f (s.team t) := by
  cases t <;> rfl

theorem team_modifyTeam_other (t t' : Team) (f : TeamGridState → TeamGridState)
    (s : BattleState) (h : t' ≠ t) : (modifyTeam t f s).team t' = s.team t' := by
  cases t <;> cases t' <;> first | rfl | exact absurd rfl h

@[simp]
theorem setCell_same (g : CellGrid) (x y : Int) (c : CellState) :
    setCell g x y c x y = c := by
  simp [setCell]

theorem setCell_other (g : CellGrid) (x y : Int) (c : CellState) (p q : Int)
    (h : ¬(p = x ∧ q = y)) : setCell g x y c p q = g p q := by
  simp only [setCell, if_neg h]

theorem cellAt?_eq_some (g : CellGrid) (x y : Int) (h : inBoundsB x y = true) :
    cellAt? g x y = some (g x y) := by
  simp [cellAt?, h]

theorem cellAt?_eq_none (g : CellGrid) (x y : Int) (h : inBoundsB x y = false) :
    cellAt? g x y = none := by
  simp [cellAt?, h]

/-- `checkCell` never throws: bounds are tested before the cell is read. -/
theorem checkCell_eq (grid : CellGrid) (now : Int) (c : Coord) :
    checkCell grid now c = some (validCellB grid now c) := by
  unfold checkCell validCellB
  cases h : inBoundsB c.x c.y with
  | false => simp [h]
  | true => simp [h, cellAt?_eq_some grid c.x c.y h]

/-- `isValidShipPlacement` never throws, and computes the conjunction of
`validCellB` over the requested cells. -/
theorem isValidShipPlacement_eq (grid : CellGrid) (cells : List Coord) (now : Int) :
    isValidShipPlacement grid cells now = some (cells.all (validCellB grid now)) := by
  induction cells with
  | nil => rfl
  | cons c rest ih =>
    unfold isValidShipPlacement
    rw [checkCell_eq]
    cases h : validCellB grid now c with
    | false => simp [h]
    | true => simp [h, ih]

theorem validCellB_iff (grid : CellGrid) (now : Int) (c : Coord) (hnow : 0 < now) :
    validCellB grid now c = true ↔
      (0 ≤ c.x ∧ c.x < GRID_SIZE ∧ 0 ≤ c.y ∧ c.y < GRID_SIZE) ∧
      (grid c.x c.y).occupied = false ∧
      ((grid c.x c.y).cooldownUntil = none ∨
        ∃ t, (grid c.x c.y).cooldownUntil = some t ∧ t < now) := by
  unfold validCellB inBoundsB cooldownOkB
  cases hcool : (grid c.x c.y).cooldownUntil with
  | none =>
    simp [hcool, and_assoc]
  | some t =>
    simp only [hcool, Bool.and_eq_true, decide_eq_true_eq, Bool.not_eq_true',
      Bool.or_eq_true, and_assoc, Option.some.injEq]
    constructor
    · rintro ⟨h1, h2, h3, h4, h5, h6⟩
      exact ⟨h1, h2, h3, h4, h5, Or.inr ⟨t, rfl, by omega⟩⟩
    · rintro ⟨h1, h2, h3, h4, h5, h6⟩
      refine ⟨h1, h2, h3, h4, h5, ?_⟩
      rcases h6 with h6 | ⟨t', ht', hlt⟩
      · cases h6
      · cases ht'; right; exact hlt

/-! ## Lemmas about heat levels and chunk bookkeeping -/

theorem heatAssign_fields (hotT warmT minT : ℚ) (c : Chunk) :
    (heatAssign hotT warmT minT c).x = c.x ∧
    (heatAssign hotT warmT minT c).y = c.y ∧
    (heatAssign hotT warmT minT c).lastActivity = c.lastActivity ∧
    (heatAssign hotT warmT minT c).activityCount = c.activityCount := by
  unfold heatAssign
  split <;> try exact ⟨rfl, rfl, rfl, rfl⟩
  split <;> try exact ⟨rfl, rfl, rfl, rfl⟩
  split <;> exact ⟨rfl, rfl, rfl, rfl⟩

theorem updateHeatLevels_length (chunks : List Chunk) :
    (updateHeatLevels chunks).length = chunks.length := by
  unfold updateHeatLevels
  split
  · rfl
  · simp

/-- `updateHeatLevels` only rewrites `heatLevel`: any projection insensitive to
`heatLevel` is preserved pointwise. -/
theorem updateHeatLevels_map {β : Type} (f : Chunk → β)
    (hf : ∀ hotT warmT minT c, f (heatAssign hotT warmT minT c) = f c)
    (chunks : List Chunk) (k : Nat) :
    ((updateHeatLevels chunks)[k]?).map f = (chunks[k]?).map f := by
  unfold updateHeatLevels
  split
  · rfl
  · rw [List.getElem?_map]
    cases chunks[k]? with
    | none => rfl
    | some c => simp [hf]

theorem findChunkIdx_some (p : Chunk → Bool) (l : List Chunk) (i : Nat)
    (h : findChunkIdx p l = some i) : ∃ c, l[i]? = some c ∧ p c = true := by
  induction l generalizing i with
  | nil => exact absurd h (by simp [findChunkIdx])
  | cons c cs ih =>
    unfold findChunkIdx at h
    by_cases hp : p c = true
    · rw [if_pos hp] at h
      cases h
      exact ⟨c, by simp, hp⟩
    · rw [if_neg hp] at h
      cases hidx : findChunkIdx p cs with
      | none => rw [hidx] at h; cases h
      | some j =>
        rw [hidx] at h
        simp only [Option.map_some'] at h
        cases h
        obtain ⟨d, hd, hpd⟩ := ih j hidx
        exact ⟨d, by simpa using hd, hpd⟩

theorem updateChunkActivity_team (now : Int) (x y : Int) (team : Team)
    (s : BattleState) :
    (updateChunkActivity now x y team s).team team = s.team team := by
  unfold updateChunkActivity
  exact team_modifyTeam_other _ _ _ _ (oppositeTeam_ne team).symm

theorem updateChunkActivity_target (now : Int) (x y : Int) (team : Team)
    (s : BattleState) :
    (updateChunkActivity now x y team s).team (oppositeTeam team) =
      { s.team (oppositeTeam team) with
        chunks := recordChunkActivity now x y (s.team (oppositeTeam team)).chunks } := by
  unfold updateChunkActivity
  rw [team_modifyTeam_same]

@[simp]
theorem team_modify_opposite_self (t : Team) (f : TeamGridState → TeamGridState)
    (s : BattleState) : (modifyTeam (oppositeTeam t) f s).team t = s.team t := by
  cases t <;> rfl

/-- The effect of `recordChunkActivity` on activity counters: the found chunk
gets `activityCount + 1` and `lastActivity = now`; every other position keeps
its `activityCount` and `lastActivity`. -/
theorem recordChunkActivity_at (now x y : Int) (chunks : List Chunk) (i : Nat) (c : Chunk)
    (hidx : findChunkIdx (fun ch => ch.x == (getChunkFromCoords x y).1
        && ch.y == (getChunkFromCoords x y).2) chunks = some i)
    (hc : chunks[i]? = some c) :
    ((recordChunkActivity now x y chunks)[i]?).map
        (fun d => (d.activityCount, d.lastActivity)) = some (c.activityCount + 1, now) ∧
    (∀ j, j ≠ i →
      ((recordChunkActivity now x y chunks)[j]?).map
          (fun d => (d.activityCount, d.lastActivity))
        = (chunks[j]?).map (fun d => (d.activityCount, d.lastActivity))) := by
  have hlt : i < chunks.length := (List.getElem?_eq_some_iff.mp hc).choose
  have hgetD : chunks.getD i default = c := by simp [List.getD, hc]
  have hpair : ∀ hotT warmT minT d,
      (fun d => (d.activityCount, d.lastActivity)) (heatAssign hotT warmT minT d)
        = (fun d => (d.activityCount, d.lastActivity)) d := by
    intro hotT warmT minT d
    have h := heatAssign_fields hotT warmT minT d
    simp [h.2.2.1, h.2.2.2]
  unfold recordChunkActivity
  simp only [hidx, hgetD]
  constructor
  · rw [updateHeatLevels_map _ hpair]
    have hset : (chunks.set i
        { c with
          activityCount := (if c.activityCount = 0 then 0 else c.activityCount) + 1,
          lastActivity := now })[i]? = some
        { c with
          activityCount := (if c.activityCount = 0 then 0 else c.activityCount) + 1,
          lastActivity := now } := by
      simp [hlt]
    rw [hset]
    simp only [Option.map_some']
    by_cases h0 : c.activityCount = 0
    · simp [h0]
    · simp [h0]
  · intro j hj
    rw [updateHeatLevels_map _ hpair, List.getElem?_set_ne (Ne.symm hj)]

/-- The FIRE branch always returns a result on an in-bounds shot, the target
team's chunks come from `recordChunkActivity`, and the acting team's state is
untouched. -/
theorem fireShot_shape (now x y : Int) (team : Team) (s : BattleState)
    (hin : inBoundsB x y = true) :
    ∃ r, fireShot now x y team s = some r ∧
      (r.1.team (oppositeTeam team)).chunks
        = recordChunkActivity now x y (s.team (oppositeTeam team)).chunks ∧
      r.1.team team = s.team team := by
  unfold fireShot processAction
  simp only [Option.getD_some, cellAt?_eq_some _ _ _ hin]
  cases hhit : ((s.team (oppositeTeam team)).grid x y).hit with
  | true =>
    simp only [hhit, if_true]
    refine ⟨_, rfl, ?_, updateChunkActivity_team now x y team s⟩
    rw [updateChunkActivity_target]
  | false =>
    simp only [hhit, Bool.false_eq_true, if_false]
    cases hos : ((s.team (oppositeTeam team)).grid x y).occupied
        && ((s.team (oppositeTeam team)).grid x y).ship.isSome with
    | false =>
      simp only [hos, Bool.false_eq_true, if_false]
      refine ⟨_, rfl, ?_, ?_⟩
      · simp [updateChunkActivity_target]
      · simp [updateChunkActivity_team]
    | true =>
      simp only [hos, if_true, team_modifyTeam_same, updateChunkActivity_target]
      cases hdl : ((s.team (oppositeTeam team)).ships.filter
          (fun ship =>
            (match ((s.team (oppositeTeam team)).grid x y).ship with
              | some r => ship.id == r.1
              | none => false)
            && decide (ship.hits + 1 = ship.cells.length))).getLast? with
      | none =>
        simp only [hdl]
        refine ⟨_, rfl, ?_, ?_⟩
        · simp [updateChunkActivity_target]
        · simp [updateChunkActivity_team]
      | some dship =>
        simp only [hdl]
        by_cases hlen : 0 < dship.cells.length
        · simp only [if_pos hlen]
          refine ⟨_, rfl, ?_, ?_⟩
          · simp [updateChunkActivity_target]
          · simp [updateChunkActivity_team]
        · simp only [if_neg hlen]
          refine ⟨_, rfl, ?_, ?_⟩
          · simp [updateChunkActivity_target]
          · simp [updateChunkActivity_team]

/-! ## Lemmas about the heat-level algorithm -/

theorem mem_activeOf_pos {chunks : List Chunk} {c : Chunk} (hc : c ∈ activeOf chunks) :
    0 < c.activityCount := by
  have := (List.mem_filter.mp hc).2
  simpa using this

theorem mem_sortedOf_iff {chunks : List Chunk} {c : Chunk} :
    c ∈ sortedOf chunks ↔ c ∈ activeOf chunks := by
  unfold sortedOf
  exact List.mem_insertionSort chunkGE

theorem sortedOf_length (chunks : List Chunk) :
    (sortedOf chunks).length = (activeOf chunks).length := by
  unfold sortedOf
  exact (List.perm_insertionSort chunkGE (activeOf chunks)).length_eq

theorem getD_mem {l : List Chunk} {i : Nat} (d : Chunk) (h : i < l.length) :
    l.getD i d ∈ l := by
  simp only [List.getD, List.get?_eq_getElem?, List.getElem?_eq_getElem h, Option.getD_some]
  exact List.getElem_mem h

theorem headD_mem {l : List Chunk} (d : Chunk) (h : l ≠ []) : l.headD d ∈ l := by
  cases l with
  | nil => exact absurd rfl h
  | cons a t => simp

theorem sortedOf_ne_nil {chunks : List Chunk}
    (hne : (activeOf chunks).isEmpty = false) : sortedOf chunks ≠ [] := by
  have hl : 0 < (activeOf chunks).length := by
    cases h : activeOf chunks with
    | nil => rw [h] at hne; simp at hne
    | cons a t => simp [h]
  intro hnil
  rw [← sortedOf_length chunks] at hl
  rw [hnil] at hl
  simp at hl

/-- Every threshold read from the sorted active list is positive. -/
theorem sorted_getD_pos {chunks : List Chunk} (i : Nat)
    (hi : i < (sortedOf chunks).length) :
    0 < ((sortedOf chunks).getD i default).activityCount :=
  mem_activeOf_pos (mem_sortedOf_iff.mp (getD_mem default hi))

theorem min_idx_lt {chunks : List Chunk} (k : Nat)
    (hne : (activeOf chunks).isEmpty = false) :
    min k ((sortedOf chunks).length - 1) < (sortedOf chunks).length := by
  have := sortedOf_ne_nil hne
  have hl : 0 < (sortedOf chunks).length := List.length_pos.mpr this
  omega

theorem hotThresholdOf_pos {chunks : List Chunk}
    (hne : (activeOf chunks).isEmpty = false) : 0 < hotThresholdOf chunks :=
  sorted_getD_pos _ (min_idx_lt _ hne)

theorem warmThresholdOf_pos {chunks : List Chunk}
    (hne : (activeOf chunks).isEmpty = false) : 0 < warmThresholdOf chunks :=
  sorted_getD_pos _ (min_idx_lt _ hne)

theorem le_maxActivityCountOf {l : List Chunk} {c : Chunk} (hc : c ∈ l) :
    c.activityCount ≤ maxActivityCountOf l := by
  induction l with
  | nil => cases hc
  | cons a t ih =>
    rcases List.mem_cons.mp hc with h | h
    · subst h
      exact le_max_left _ _
    · exact le_trans (ih h) (le_max_right _ _)

theorem maxActivityCountOf_le {l : List Chunk} {q : ℚ} (h0 : 0 ≤ q)
    (h : ∀ c ∈ l, c.activityCount ≤ q) : maxActivityCountOf l ≤ q := by
  induction l with
  | nil => exact h0
  | cons a t ih =>
    refine max_le (h a (List.mem_cons_self a t)) (ih fun c hc => h c (List.mem_cons_of_mem a hc))

theorem sorted_head_dom {l : List Chunk} (hs : List.Sorted chunkGE l) :
    ∀ c ∈ l, c.activityCount ≤ (l.headD default).activityCount := by
  cases l with
  | nil => intro c hc; cases hc
  | cons a t =>
    intro c hc
    rcases List.mem_cons.mp hc with h | h
    · subst h; simp
    · exact List.rel_of_sorted_cons hs c h

/-- The head of the descending sort is the spec's `maxActivityCount`. -/
theorem head_count_eq_max (chunks : List Chunk)
    (hne : (activeOf chunks).isEmpty = false) :
    ((sortedOf chunks).headD default).activityCount
      = maxActivityCountOf (activeOf chunks) := by
  have hnil := sortedOf_ne_nil hne
  have hmem : (sortedOf chunks).headD default ∈ sortedOf chunks := headD_mem default hnil
  apply le_antisymm
  · exact le_maxActivityCountOf (mem_sortedOf_iff.mp hmem)
  · refine maxActivityCountOf_le (le_of_lt (mem_activeOf_pos (mem_sortedOf_iff.mp hmem))) ?_
    intro c hc
    exact sorted_head_dom (List.sorted_insertionSort chunkGE (activeOf chunks)) c
      (mem_sortedOf_iff.mpr hc)

/-- Sorting chunks by activity and then reading off the counts is the same as
sorting the counts: the thresholds depend only on the multiset of counts. -/
theorem map_count_insertionSort (l : List Chunk) :
    (l.insertionSort chunkGE).map (fun c => c.activityCount)
      = (l.map (fun c => c.activityCount)).insertionSort ratGE := by
  have hperm : List.Perm ((l.insertionSort chunkGE).map (fun c => c.activityCount))
      ((l.map (fun c => c.activityCount)).insertionSort ratGE) :=
    ((List.perm_insertionSort chunkGE l).map _).trans
      (List.perm_insertionSort ratGE _).symm
  have hs1 : List.Sorted ratGE ((l.insertionSort chunkGE).map
      (fun c => c.activityCount)) :=
    List.Pairwise.map _ (fun _ _ hab => hab) (List.sorted_insertionSort chunkGE l)
  have hs2 : List.Sorted ratGE ((l.map (fun c => c.activityCount)).insertionSort
      ratGE) :=
    List.sorted_insertionSort ratGE _
  exact List.eq_of_perm_of_sorted hperm hs1 hs2

theorem getD_count_of_map_count {l₁ l₂ : List Chunk}
    (h : l₁.map (fun c => c.activityCount) = l₂.map (fun c => c.activityCount))
    (i : Nat) :
    (l₁.getD i default).activityCount = (l₂.getD i default).activityCount := by
  induction l₁ generalizing l₂ i with
  | nil =>
    cases l₂ with
    | nil => rfl
    | cons b t => simp at h
  | cons a t ih =>
    cases l₂ with
    | nil => simp at h
    | cons b u =>
      simp only [List.map_cons, List.cons.injEq] at h
      cases i with
      | zero => simpa using h.1
      | succ n =>
        simp only [List.getD_cons_succ]
        exact ih h.2 n

theorem headD_count_of_map_count {l₁ l₂ : List Chunk}
    (h : l₁.map (fun c => c.activityCount) = l₂.map (fun c => c.activityCount)) :
    (l₁.headD default).activityCount = (l₂.headD default).activityCount := by
  cases l₁ with
  | nil =>
    cases l₂ with
    | nil => rfl
    | cons b t => simp at h
  | cons a t =>
    cases l₂ with
    | nil => simp at h
    | cons b u =>
      simp only [List.map_cons, List.cons.injEq] at h
      simpa using h.1

/-- `heatAssign` writes a heat level computed from `activityCount` alone. -/
theorem heatAssign_repr (hotT warmT minT : ℚ) (c : Chunk) :
    heatAssign hotT warmT minT c
      = { c with heatLevel :=
            if hotT ≤ c.activityCount ∧ 0 < c.activityCount then 3
            else if warmT ≤ c.activityCount ∧ 0 < c.activityCount then 2
            else if minT ≤ c.activityCount then 1 else 0 } := by
  unfold heatAssign
  split
  · next h => simp [h]
  · next h =>
    split
    · next h2 => simp [h, h2]
    · next h2 =>
      split
      · next h3 => simp [h, h2, h3]
      · next h3 => simp [h, h2, h3]

theorem heatAssign_idem (hotT warmT minT : ℚ) (c : Chunk) :
    heatAssign hotT warmT minT (heatAssign hotT warmT minT c)
      = heatAssign hotT warmT minT c := by
  rw [heatAssign_repr hotT warmT minT c, heatAssign_repr]

/-- Filtering the active chunks commutes with `heatAssign`. -/
theorem activeOf_map_heatAssign (hotT warmT minT : ℚ) (chunks : List Chunk) :
    activeOf (chunks.map (heatAssign hotT warmT minT))
      = (activeOf chunks).map (heatAssign hotT warmT minT) := by
  unfold activeOf
  rw [List.filter_map]
  congr 1
  apply List.filter_congr
  intro c _
  simp [Function.comp, (heatAssign_fields hotT warmT minT c).2.2.2]

/-- The counts of the sorted active list are invariant under a pass of
`updateHeatLevels`. -/
theorem sortedOf_counts_invariant (chunks : List Chunk)
    (hne : (activeOf chunks).isEmpty = false) :
    (sortedOf (updateHeatLevels chunks)).map (fun c => c.activityCount)
      = (sortedOf chunks).map (fun c => c.activityCount) := by
  have hup : updateHeatLevels chunks
      = chunks.map (heatAssign (hotThresholdOf chunks) (warmThresholdOf chunks)
          (minThresholdOf chunks)) := by
    unfold updateHeatLevels
    rw [if_neg (by simp [hne])]
  unfold sortedOf
  rw [hup, activeOf_map_heatAssign, map_count_insertionSort, map_count_insertionSort,
    List.map_map]
  congr 2
  funext c
  simp [Function.comp, (heatAssign_fields _ _ _ c).2.2.2]

theorem activeOf_updateHeatLevels_length (chunks : List Chunk)
    (hne : (activeOf chunks).isEmpty = false) :
    (activeOf (updateHeatLevels chunks)).length = (activeOf chunks).length := by
  have hup : updateHeatLevels chunks
      = chunks.map (heatAssign (hotThresholdOf chunks) (warmThresholdOf chunks)
          (minThresholdOf chunks)) := by
    unfold updateHeatLevels
    rw [if_neg (by simp [hne])]
  rw [hup, activeOf_map_heatAssign, List.length_map]

/-- All three thresholds are invariant under a pass of `updateHeatLevels`. -/
theorem thresholds_invariant (chunks : List Chunk)
    (hne : (activeOf chunks).isEmpty = false) :
    hotThresholdOf (updateHeatLevels chunks) = hotThresholdOf chunks ∧
    warmThresholdOf (updateHeatLevels chunks) = warmThresholdOf chunks ∧
    minThresholdOf (updateHeatLevels chunks) = minThresholdOf chunks := by
  have hcounts := sortedOf_counts_invariant chunks hne
  have hslen : (sortedOf (updateHeatLevels chunks)).length = (sortedOf chunks).length := by
    have := congrArg List.length hcounts
    simpa using this
  have halen := activeOf_updateHeatLevels_length chunks hne
  refine ⟨?_, ?_, ?_⟩
  · unfold hotThresholdOf hotCountOf
    rw [halen, hslen]
    exact getD_count_of_map_count hcounts _
  · unfold warmThresholdOf hotCountOf warmCountOf
    rw [halen, hslen]
    exact getD_count_of_map_count hcounts _
  · unfold minThresholdOf
    rw [headD_count_of_map_count hcounts]

theorem minThresholdOf_pos {chunks : List Chunk}
    (hne : (activeOf chunks).isEmpty = false) : 0 < minThresholdOf chunks := by
  unfold minThresholdOf
  have h1 : 0 < ((sortedOf chunks).headD default).activityCount :=
    mem_activeOf_pos (mem_sortedOf_iff.mp (headD_mem default (sortedOf_ne_nil hne)))
  exact mul_pos h1 (by norm_num)

/-- A chunk with zero activity is assigned heat level 0 whenever the minimum
threshold is positive. -/
theorem heatAssign_zero (hotT warmT minT : ℚ) (hm : 0 < minT) (c : Chunk)
    (hc : c.activityCount = 0) : (heatAssign hotT warmT minT c).heatLevel = 0 := by
  rw [heatAssign_repr]
  simp [hc, not_le.mpr hm]

/-- The per-chunk decay step keeps the invariant "zero activity means zero
heat". -/
theorem decayChunk_zero_heat (now : Int) (c : Chunk)
    (hinv : c.activityCount = 0 → c.heatLevel = 0)
    (h0 : (decayChunk now c).activityCount = 0) :
    (decayChunk now c).heatLevel = 0 := by
  unfold decayChunk at h0 ⊢
  split_ifs at h0 ⊢ with hpos htime hsnap heps
  · exact hinv h0
  · rfl
  · exfalso
    simp only [Chunk.mk.injEq] at h0
    rw [h0] at hsnap
    exact hsnap (by norm_num)
  · exact hinv h0
  · exact hinv h0

/-- Reading any point of the grid produced by the PLACE_SHIP cell-overwrite
loop: covered cells hold the fresh record, everything else is untouched. -/
theorem foldl_setCell_read (rec : CellState) (cells : List Coord) (g : CellGrid)
    (p q : Int) :
    (cells.foldl (fun g' c => setCell g' c.x c.y rec) g) p q
      = if (⟨p, q⟩ : Coord) ∈ cells then rec else g p q := by
  induction cells generalizing g with
  | nil => simp
  | cons c rest ih =>
    rw [List.foldl_cons, ih]
    by_cases hmem : (⟨p, q⟩ : Coord) ∈ rest
    · simp [hmem]
    · by_cases hc : p = c.x ∧ q = c.y
      · have hcc : (⟨p, q⟩ : Coord) = c := by
          obtain ⟨h1, h2⟩ := hc
          cases c
          simp_all
        have hpq : (⟨p, q⟩ : Coord) ∈ c :: rest := by simp [hcc]
        simp [hmem, hpq, setCell, hc]
      · have hpq : (⟨p, q⟩ : Coord) ∉ c :: rest := by
          intro hmm
          rcases List.mem_cons.mp hmm with h | h
          · apply hc
            cases c
            cases h
            exact ⟨rfl, rfl⟩
          · exact hmem h
        simp [hmem, hpq, setCell, hc]

/-- A failing placement returns `(s, false)`. -/
theorem placeShip_failure (now : Int) (sid gid owner : String) (x y : Int)
    (size : Nat) (horizontal : Bool) (team : Team) (s : BattleState)
    (howner : owner ≠ "")
    (hall : (shipCellsFor x y size horizontal).all
      (validCellB (s.team team).grid now) = false) :
    placeShip now sid gid owner x y size horizontal team s = some (s, false) := by
  unfold placeShip processAction
  simp only [Option.getD_some, if_neg howner, isValidShipPlacement_eq, hall]

/-- A valid placement returns `true` and overwrites exactly the covered cells,
appends the ship, and bumps `totalShips`. -/
theorem placeShip_success_effects (now : Int) (sid gid owner : String) (x y : Int)
    (size : Nat) (horizontal : Bool) (team : Team) (s : BattleState)
    (howner : owner ≠ "") (hsid : sid ≠ "")
    (hall : (shipCellsFor x y size horizontal).all
      (validCellB (s.team team).grid now) = true) :
    placeShip now sid gid owner x y size horizontal team s
      = some (modifyTeam team (fun prev =>
          { prev with
            grid := (shipCellsFor x y size horizontal).foldl (fun g c =>
              setCell g c.x c.y
                { occupied := true, hit := false, ship := some (sid, owner),
                  cooldownUntil := none }) prev.grid,
            ships := prev.ships ++
              [{ id := sid, owner := owner,
                 cells := shipCellsFor x y size horizontal, hits := 0,
                 destroyed := false }],
            stats := { prev.stats with totalShips := prev.stats.totalShips + 1 } }) s,
        true) := by
  unfold placeShip processAction
  simp only [Option.getD_some, if_neg howner, isValidShipPlacement_eq, hall, if_neg hsid]

theorem mem_of_getLast?' {α : Type} {l : List α} {a : α}
    (h : l.getLast? = some a) : a ∈ l := by
  induction l with
  | nil => simp at h
  | cons b t ih =>
    cases t with
    | nil =>
      simp only [List.getLast?_singleton, Option.some.injEq] at h
      simp [h]
    | cons c u =>
      rw [List.getLast?_cons_cons] at h
      exact List.mem_cons_of_mem b (ih h)

theorem getLast?_isSome_of_ne_nil {α : Type} {l : List α} (h : l ≠ []) :
    ∃ a, l.getLast? = some a := by
  induction l with
  | nil => exact absurd rfl h
  | cons b t ih =>
    cases t with
    | nil => exact ⟨b, rfl⟩
    | cons c u =>
      obtain ⟨a, ha⟩ := ih (by simp)
      exact ⟨a, by rw [List.getLast?_cons_cons]; exact ha⟩

/-- When every element passing the filter is `a` and `a` does pass it, the
last element of the filtered list is `a`. -/
theorem filter_getLast?_all_eq {α : Type} {l : List α} {p : α → Bool} {a : α}
    (ha : a ∈ l) (hpa : p a = true) (huniq : ∀ b ∈ l, p b = true → b = a) :
    (l.filter p).getLast? = some a := by
  have hmemf : a ∈ l.filter p := List.mem_filter.mpr ⟨ha, hpa⟩
  have hne : l.filter p ≠ [] := List.ne_nil_of_mem hmemf
  obtain ⟨b, hb⟩ := getLast?_isSome_of_ne_nil hne
  have hbl := List.mem_filter.mp (mem_of_getLast?' hb)
  rw [hb, huniq b hbl.1 hbl.2]

/-- The full FIRE path on an occupied, unhit cell whose matching-ship filter
finds a destroyed ship with at least one cell: hit marking, stats, ship
update, then area cooldown. -/
theorem fireShot_destroy_state (now x y : Int) (team : Team) (s : BattleState)
    (ref : String × String) (dship : Ship)
    (hin : inBoundsB x y = true)
    (hhit : ((s.team (oppositeTeam team)).grid x y).hit = false)
    (hocc : ((s.team (oppositeTeam team)).grid x y).occupied = true)
    (href : ((s.team (oppositeTeam team)).grid x y).ship = some ref)
    (hfilter : ((s.team (oppositeTeam team)).ships.filter
      (fun sh => sh.id == ref.1 && decide (sh.hits + 1 = sh.cells.length))).getLast?
        = some dship)
    (hlen : dship.cells ≠ []) :
    fireShot now x y team s
      = some (modifyTeam (oppositeTeam team) (fun prev =>
          { prev with grid := applyCooldownToShipArea now dship.cells prev.grid })
        (modifyTeam (oppositeTeam team) (fun prev =>
          { prev with ships := prev.ships.map (fun sh =>
              if sh.id == ref.1 then
                { sh with hits := sh.hits + 1,
                          destroyed := decide (sh.hits + 1 = sh.cells.length) }
              else sh) })
        (modifyTeam (oppositeTeam team) (fun prev =>
          { prev with
            grid := setCell prev.grid x y { prev.grid x y with hit := true },
            stats := { prev.stats with totalHits := prev.stats.totalHits + 1 } })
        (updateChunkActivity now x y team s))), true) := by
  unfold fireShot processAction
  simp only [Option.getD_some, cellAt?_eq_some _ _ _ hin, hhit, Bool.false_eq_true,
    if_false, hocc, href, Option.isSome_some, Bool.and_self, if_true,
    team_modifyTeam_same, updateChunkActivity_target]
  rw [hfilter]
  simp only [if_pos (List.length_pos.mpr hlen)]

/-- The full FIRE path on an occupied, unhit cell whose matching-ship filter
finds nothing destroyed: hit marking, stats and ship update only. -/
theorem fireShot_partial_state (now x y : Int) (team : Team) (s : BattleState)
    (ref : String × String)
    (hin : inBoundsB x y = true)
    (hhit : ((s.team (oppositeTeam team)).grid x y).hit = false)
    (hocc : ((s.team (oppositeTeam team)).grid x y).occupied = true)
    (href : ((s.team (oppositeTeam team)).grid x y).ship = some ref)
    (hfilter : ((s.team (oppositeTeam team)).ships.filter
      (fun sh => sh.id == ref.1 && decide (sh.hits + 1 = sh.cells.length))).getLast?
        = none) :
    fireShot now x y team s
      = some (modifyTeam (oppositeTeam team) (fun prev =>
          { prev with ships := prev.ships.map (fun sh =>
              if sh.id == ref.1 then
                { sh with hits := sh.hits + 1,
                          destroyed := decide (sh.hits + 1 = sh.cells.length) }
              else sh) })
        (modifyTeam (oppositeTeam team) (fun prev =>
          { prev with
            grid := setCell prev.grid x y { prev.grid x y with hit := true },
            stats := { prev.stats with totalHits := prev.stats.totalHits + 1 } })
        (updateChunkActivity now x y team s)), true) := by
  unfold fireShot processAction
  simp only [Option.getD_some, cellAt?_eq_some _ _ _ hin, hhit, Bool.false_eq_true,
    if_false, hocc, href, Option.isSome_some, Bool.and_self, if_true,
    team_modifyTeam_same, updateChunkActivity_target]
  rw [hfilter]

theorem updateChunkActivity_grid (now x y : Int) (t team : Team) (s : BattleState) :
    ((updateChunkActivity now x y t s).team team).grid = (s.team team).grid := by
  by_cases h : team = oppositeTeam t
  · subst h
    rw [updateChunkActivity_target]
  · unfold updateChunkActivity
    rw [team_modifyTeam_other _ _ _ _ h]

theorem modifyTeam_team_grid (t team : Team) (f : TeamGridState → TeamGridState)
    (s : BattleState) :
    ((modifyTeam t f s).team team).grid
      = if team = t then (f (s.team t)).grid else (s.team team).grid := by
  by_cases h : team = t
  · subst h
    rw [team_modifyTeam_same, if_pos rfl]
  · rw [team_modifyTeam_other _ _ _ _ h, if_neg h]

/-- A `modifyTeam` layer that only rewrites `ships` never changes any grid. -/
theorem shipmap_layer_grid (t team : Team) (f : Ship → Ship) (X : BattleState) :
    ((modifyTeam t (fun prev => { prev with ships := prev.ships.map f }) X).team
      team).grid = (X.team team).grid := by
  rw [modifyTeam_team_grid]
  by_cases h : team = t
  · rw [if_pos h, h]
  · rw [if_neg h]

/-- The hit-marking `modifyTeam` layer never changes a cell's `cooldownUntil`. -/
theorem hitmark_layer_cooldown (ax ay : Int) (t team : Team) (X : BattleState)
    (p q : Int) :
    (((modifyTeam t (fun prev =>
        { prev with
          grid := setCell prev.grid ax ay { prev.grid ax ay with hit := true },
          stats := { prev.stats with totalHits := prev.stats.totalHits + 1 } })
      X).team team).grid p q).cooldownUntil
      = ((X.team team).grid p q).cooldownUntil := by
  by_cases h : team = t
  · subst h
    rw [team_modifyTeam_same]
    by_cases hpq : p = ax ∧ q = ay
    · obtain ⟨rfl, rfl⟩ := hpq
      simp [setCell]
    · simp only [setCell, if_neg hpq]
  · rw [team_modifyTeam_other _ _ _ _ h]

/-- Any completed `processAction` changes a cell's `cooldownUntil` in one of
three ways only: it leaves it alone, it writes the fresh destruction stamp
`now + DESTROYED_TERRITORY_COOLDOWN`, or it erases it by a valid ship
placement over a cell whose stored cooldown was falsy or expired. -/
theorem processAction_cooldown_cases (now : Int) (genId : String) (s : BattleState)
    (a : BattleAction) (r : BattleState × Bool)
    (hr : processAction now genId s a = some r) (team : Team) (p q : Int) :
    ((r.1.team team).grid p q).cooldownUntil
        = ((s.team team).grid p q).cooldownUntil ∨
    ((r.1.team team).grid p q).cooldownUntil
        = some (now + DESTROYED_TERRITORY_COOLDOWN) ∨
    (((r.1.team team).grid p q).cooldownUntil = none ∧
      cooldownOkB ((s.team team).grid p q) now = true) := by
  unfold processAction at hr
  cases hty : a.type with
  | FIRE =>
    rw [hty] at hr
    simp only at hr
    cases hcell : cellAt? ((s.team (oppositeTeam (a.team.getD Team.blue))).grid)
        a.x a.y with
    | none =>
      rw [hcell] at hr
      simp at hr
    | some cell =>
      rw [hcell] at hr
      simp only at hr
      by_cases hh : cell.hit
      · rw [if_pos hh] at hr
        injection hr with hr1
        left
        rw [← hr1, updateChunkActivity_grid]
      · rw [if_neg hh] at hr
        by_cases hos : (cell.occupied && cell.ship.isSome) = true
        · rw [if_pos hos] at hr
          simp only [team_modifyTeam_same] at hr
          split at hr
          · rename_i dship heq
            split at hr
            · rename_i hlen
              injection hr with hr1
              rw [← hr1]
              rw [modifyTeam_team_grid]
              by_cases hteam : team = oppositeTeam (a.team.getD Team.blue)
              · rw [if_pos hteam]
                subst hteam
                simp only [applyCooldownToShipArea]
                by_cases harea : inCooldownAreaB dship.cells p q = true
                · simp only [harea, if_true]
                  right; left
                  simp
                · simp only [harea, Bool.false_eq_true, if_false]
                  left
                  rw [shipmap_layer_grid, hitmark_layer_cooldown,
                    updateChunkActivity_grid]
              · rw [if_neg hteam]
                left
                rw [shipmap_layer_grid, hitmark_layer_cooldown,
                  updateChunkActivity_grid]
            · rename_i hlen
              injection hr with hr1
              left
              rw [← hr1, shipmap_layer_grid, hitmark_layer_cooldown,
                updateChunkActivity_grid]
          · rename_i heq
            injection hr with hr1
            left
            rw [← hr1, shipmap_layer_grid, hitmark_layer_cooldown,
              updateChunkActivity_grid]
        · rw [if_neg hos] at hr
          injection hr with hr1
          left
          rw [← hr1, hitmark_layer_cooldown, updateChunkActivity_grid]
  | PLACE_SHIP =>
    rw [hty] at hr
    simp only at hr
    cases hcells : a.shipCells with
    | none =>
      rw [hcells] at hr
      simp only at hr
      injection hr with hr1
      left
      rw [← hr1]
    | some shipCells =>
      rw [hcells] at hr
      cases hown : a.owner with
      | none =>
        rw [hown] at hr
        simp only at hr
        injection hr with hr1
        left
        rw [← hr1]
      | some owner =>
        rw [hown] at hr
        simp only at hr
        by_cases howner : owner = ""
        · rw [if_pos howner] at hr
          injection hr with hr1
          left
          rw [← hr1]
        · rw [if_neg howner] at hr
          rw [isValidShipPlacement_eq] at hr
          cases hall : shipCells.all
              (validCellB ((s.team (a.team.getD Team.blue)).grid) now) with
          | false =>
            rw [hall] at hr
            injection hr with hr1
            left
            rw [← hr1]
          | true =>
            rw [hall] at hr
            injection hr with hr1
            rw [← hr1]
            rw [modifyTeam_team_grid]
            by_cases hteam : team = a.team.getD Team.blue
            · rw [if_pos hteam]
              subst hteam
              simp only [foldl_setCell_read]
              by_cases hmem : (⟨p, q⟩ : Coord) ∈ shipCells
              · simp only [if_pos hmem]
                right; right
                refine ⟨by trivial, ?_⟩
                have hv := List.all_eq_true.mp hall _ hmem
                unfold validCellB at hv
                simp only [Bool.and_eq_true] at hv
                exact hv.2
              · simp only [if_neg hmem]
                left
                trivial
            · rw [if_neg hteam]
              left
              rfl

/-! ## Claim theorems -/

/-- Claim C3: every in-bounds FIRE action increments the `activityCount` of the
opposing (target) team's chunk containing `(x, y)` by exactly 1 and stamps its
`lastActivity` with now, leaving every other chunk's counters alone — even when
the target cell is already hit (the theorem holds for every grid state, with no
assumption on the target cell), and always on the target team's chunks while
the acting team's chunks are untouched. -/
theorem fire_updates_target_chunk
    (now x y : Int) (team : Team) (s : BattleState) (i : Nat) (c : Chunk)
    (hin : inBoundsB x y = true)
    (hidx : findChunkIdx (fun ch => ch.x == (getChunkFromCoords x y).1
        && ch.y == (getChunkFromCoords x y).2) (s.team (oppositeTeam team)).chunks = some i)
    (hc : (s.team (oppositeTeam team)).chunks[i]? = some c) :
    ∃ r, fireShot now x y team s = some r ∧
      ((r.1.team (oppositeTeam team)).chunks[i]?).map
          (fun d => (d.activityCount, d.lastActivity)) = some (c.activityCount + 1, now) ∧
      (∀ j, j ≠ i →
        ((r.1.team (oppositeTeam team)).chunks[j]?).map
            (fun d => (d.activityCount, d.lastActivity))
          = ((s.team (oppositeTeam team)).chunks[j]?).map
              (fun d => (d.activityCount, d.lastActivity))) ∧
      (r.1.team team).chunks = (s.team team).chunks := by
  obtain ⟨r, hr, hch, hteam⟩ := fireShot_shape now x y team s hin
  obtain ⟨hat, hother⟩ := recordChunkActivity_at now x y
    (s.team (oppositeTeam team)).chunks i c hidx hc
  exact ⟨r, hr, by rw [hch]; exact hat,
    fun j hj => by rw [hch]; exact hother j hj, by rw [hteam]⟩

/-- Witness for `fire_updates_target_chunk` at a concrete input: red fires at
`(0, 0)` of the initial state, so blue's chunk 0 is bumped. -/
theorem fire_updates_target_chunk_witness :
    inBoundsB 0 0 = true ∧
    findChunkIdx (fun ch => ch.x == (getChunkFromCoords 0 0).1
        && ch.y == (getChunkFromCoords 0 0).2)
      (initState.team (oppositeTeam Team.red)).chunks = some 0 ∧
    (initState.team (oppositeTeam Team.red)).chunks[0]?
      = some { x := 0, y := 0, heatLevel := 0, lastActivity := 0, activityCount := 0 } ∧
    (∃ r, fireShot 1000 0 0 Team.red initState = some r ∧
      ((r.1.team (oppositeTeam Team.red)).chunks[0]?).map
          (fun d => (d.activityCount, d.lastActivity))
        = some ((0 : ℚ) + 1, 1000) ∧
      (∀ j, j ≠ 0 →
        ((r.1.team (oppositeTeam Team.red)).chunks[j]?).map
            (fun d => (d.activityCount, d.lastActivity))
          = ((initState.team (oppositeTeam Team.red)).chunks[j]?).map
              (fun d => (d.activityCount, d.lastActivity))) ∧
      (r.1.team Team.red).chunks = (initState.team Team.red).chunks) :=
  ⟨by decide, by decide, by decide,
    fire_updates_target_chunk 1000 0 0 Team.red initState 0
      { x := 0, y := 0, heatLevel := 0, lastActivity := 0, activityCount := 0 }
      (by decide) (by decide) (by decide)⟩

/-- Claim C8 (amended): `placeShip` is total — for every input, including
out-of-range coordinates, it returns a boolean without throwing (its validity
check bounds-tests before reading the grid) — and `fireShot` returns a boolean
for every in-bounds coordinate; but `fireShot` is NOT total on out-of-range
coordinates (see the counterexample), because the FIRE branch reads
`targetGrid[y][x]` unguarded. -/
theorem actions_return_boolean :
    (∀ (now : Int) (sid gid owner : String) (x y : Int) (size : Nat)
      (horizontal : Bool) (team : Team) (s : BattleState),
      ∃ r, placeShip now sid gid owner x y size horizontal team s = some r) ∧
    (∀ (now x y : Int) (team : Team) (s : BattleState), inBoundsB x y = true →
      ∃ r, fireShot now x y team s = some r) := by
  constructor
  · intro now sid gid owner x y size horizontal team s
    unfold placeShip processAction
    by_cases howner : owner = ""
    · exact ⟨(s, false), by simp [howner]⟩
    · simp only [Option.getD_some, if_neg howner, isValidShipPlacement_eq]
      cases hall : (shipCellsFor x y size horizontal).all
          (validCellB (s.team team).grid now) with
      | false => exact ⟨(s, false), by simp⟩
      | true => exact ⟨_, rfl⟩
  · intro now x y team s hin
    obtain ⟨r, hr, -, -⟩ := fireShot_shape now x y team s hin
    exact ⟨r, hr⟩

/-- Claim C8, counterexample to the claim as stated: firing at the
out-of-bounds coordinate `(0, 1000)` dereferences an undefined row
(`targetGrid[1000][0]`), which throws — modelled as `none` — so `fireShot`
does not return a boolean success indicator for every input. -/
theorem fireShot_out_of_bounds_throws :
    (fireShot 1000 0 1000 Team.red initState).isSome = false := by decide

/-- Witness for `actions_return_boolean` at concrete inputs (the `placeShip`
half even at an out-of-range coordinate). -/
theorem actions_return_boolean_witness :
    (∃ r, placeShip 1000 "s1" "g1" "anon-1" (-3) 2000 4 false Team.blue initState
      = some r) ∧
    inBoundsB 5 7 = true ∧
    (∃ r, fireShot 1000 5 7 Team.blue initState = some r) :=
  ⟨actions_return_boolean.1 1000 "s1" "g1" "anon-1" (-3) 2000 4 false Team.blue initState,
    by decide,
    actions_return_boolean.2 1000 5 7 Team.blue initState (by decide)⟩

/-- Claim C1: `placeShip` computes exactly `size` contiguous cells from
`(x, y)` in the requested orientation (horizontal: `x..x+size-1` at row `y`;
vertical: `y..y+size-1` at column `x`); it succeeds iff every one of those
cells is within grid bounds, not occupied, and not under active cooldown
(`cooldownUntil` absent or `< now`); on success it marks exactly those cells
occupied with a ship reference, registers the ship, and increments the acting
team's `totalShips` (everything else unchanged); on failure it returns `false`
and leaves the state unchanged. -/
theorem placeShip_spec (now : Int) (sid gid owner : String) (x y : Int)
    (size : Nat) (horizontal : Bool) (team : Team) (s : BattleState)
    (howner : owner ≠ "") (hsid : sid ≠ "") (hnow : 0 < now) :
    ∃ r, placeShip now sid gid owner x y size horizontal team s = some r ∧
      (shipCellsFor x y size horizontal).length = size ∧
      (∀ i : Nat, i < size →
        (shipCellsFor x y size horizontal)[i]?
          = some (if horizontal then ⟨x + (i : Int), y⟩ else ⟨x, y + (i : Int)⟩)) ∧
      (r.2 = true ↔ ∀ c ∈ shipCellsFor x y size horizontal,
        (0 ≤ c.x ∧ c.x < GRID_SIZE ∧ 0 ≤ c.y ∧ c.y < GRID_SIZE) ∧
        ((s.team team).grid c.x c.y).occupied = false ∧
        (((s.team team).grid c.x c.y).cooldownUntil = none ∨
          ∃ t, ((s.team team).grid c.x c.y).cooldownUntil = some t ∧ t < now)) ∧
      (r.2 = false → r.1 = s) ∧
      (r.2 = true →
        (∀ p q : Int,
          ((⟨p, q⟩ : Coord) ∈ shipCellsFor x y size horizontal →
            (r.1.team team).grid p q
              = { occupied := true, hit := false, ship := some (sid, owner),
                  cooldownUntil := none }) ∧
          ((⟨p, q⟩ : Coord) ∉ shipCellsFor x y size horizontal →
            (r.1.team team).grid p q = (s.team team).grid p q)) ∧
        (r.1.team team).ships = (s.team team).ships ++
          [{ id := sid, owner := owner, cells := shipCellsFor x y size horizontal,
             hits := 0, destroyed := false }] ∧
        (r.1.team team).stats.totalShips = (s.team team).stats.totalShips + 1 ∧
        (r.1.team team).stats.totalHits = (s.team team).stats.totalHits ∧
        (r.1.team team).chunks = (s.team team).chunks ∧
        r.1.team (oppositeTeam team) = s.team (oppositeTeam team)) := by
  have hlen : (shipCellsFor x y size horizontal).length = size := by
    rw [shipCellsFor, List.length_map, List.length_range]
  have hget : ∀ i : Nat, i < size →
      (shipCellsFor x y size horizontal)[i]?
        = some (if horizontal then ⟨x + (i : Int), y⟩ else ⟨x, y + (i : Int)⟩) := by
    intro i hi
    rw [shipCellsFor, List.getElem?_map, List.getElem?_range hi, Option.map_some']
  have hiff : ((shipCellsFor x y size horizontal).all
        (validCellB (s.team team).grid now) = true)
      ↔ ∀ c ∈ shipCellsFor x y size horizontal,
          (0 ≤ c.x ∧ c.x < GRID_SIZE ∧ 0 ≤ c.y ∧ c.y < GRID_SIZE) ∧
          ((s.team team).grid c.x c.y).occupied = false ∧
          (((s.team team).grid c.x c.y).cooldownUntil = none ∨
            ∃ t, ((s.team team).grid c.x c.y).cooldownUntil = some t ∧ t < now) := by
    rw [List.all_eq_true]
    constructor
    · intro h c hc
      exact (validCellB_iff (s.team team).grid now c hnow).mp (h c hc)
    · intro h c hc
      exact (validCellB_iff (s.team team).grid now c hnow).mpr (h c hc)
  cases hall : (shipCellsFor x y size horizontal).all
      (validCellB (s.team team).grid now) with
  | false =>
    refine ⟨(s, false), placeShip_failure now sid gid owner x y size horizontal team s
      howner hall, hlen, hget, ?_, fun _ => rfl, by intro h; simp at h⟩
    rw [← hiff, hall]
  | true =>
    refine ⟨_, placeShip_success_effects now sid gid owner x y size horizontal team s
      howner hsid hall, hlen, hget, by rw [← hiff, hall], by intro h; simp at h,
      fun _ => ⟨?_, ?_, ?_, ?_, ?_, ?_⟩⟩
    · intro p q
      constructor
      · intro hmem
        simp [foldl_setCell_read, hmem]
      · intro hmem
        simp [foldl_setCell_read, hmem]
    · simp
    · simp
    · simp
    · simp
    · exact team_modifyTeam_other team (oppositeTeam team) _ s (oppositeTeam_ne team)

/-- Witness for `placeShip_spec` at a concrete input. -/
theorem placeShip_spec_witness :
    ("anon-1" : String) ≠ "" ∧ ("s1" : String) ≠ "" ∧ (0 : Int) < 1000 ∧
    ∃ r, placeShip 1000 "s1" "g1" "anon-1" 10 10 2 true Team.blue initState
      = some r :=
  ⟨by decide, by decide, by decide,
    match placeShip_spec 1000 "s1" "g1" "anon-1" 10 10 2 true Team.blue initState
      (by decide) (by decide) (by decide) with
    | ⟨r, hr, _⟩ => ⟨r, hr⟩⟩

/-- Claim C10: placement validity never examines the `hit` flag — a placement
whose cells are all unoccupied, in bounds and cooldown-free succeeds even when
a covered cell is already marked hit, and each covered cell is overwritten by
the fresh record `{occupied := true, hit := false, ship := some ref}` with no
`cooldownUntil` field, erasing the prior hit marker and any stored (expired)
cooldown timestamp. -/
theorem placement_ignores_hit_flag (now : Int) (sid gid owner : String)
    (x y : Int) (size : Nat) (horizontal : Bool) (team : Team) (s : BattleState)
    (howner : owner ≠ "") (hsid : sid ≠ "")
    (c0 : Coord) (_hc0 : c0 ∈ shipCellsFor x y size horizontal)
    (_hhit : ((s.team team).grid c0.x c0.y).hit = true)
    (hvalid : ∀ c ∈ shipCellsFor x y size horizontal,
      validCellB (s.team team).grid now c = true) :
    ∃ s', placeShip now sid gid owner x y size horizontal team s = some (s', true) ∧
      ∀ c ∈ shipCellsFor x y size horizontal,
        (s'.team team).grid c.x c.y
          = { occupied := true, hit := false, ship := some (sid, owner),
              cooldownUntil := none } := by
  have hall : (shipCellsFor x y size horizontal).all
      (validCellB (s.team team).grid now) = true :=
    List.all_eq_true.mpr hvalid
  refine ⟨_, placeShip_success_effects now sid gid owner x y size horizontal team s
    howner hsid hall, ?_⟩
  intro c hc
  have hc' : (⟨c.x, c.y⟩ : Coord) ∈ shipCellsFor x y size horizontal := by
    cases c
    exact hc
  simp [foldl_setCell_read, hc']

/-- Witness for `placement_ignores_hit_flag`: placing a blue ship over the
already-hit cell `(0, 0)` of `exHitState` succeeds and rewrites the cell. -/
theorem placement_ignores_hit_flag_witness :
    ((exHitState.team Team.blue).grid 0 0).hit = true ∧
    (∀ c ∈ shipCellsFor 0 0 2 true,
      validCellB (exHitState.team Team.blue).grid 1000 c = true) ∧
    ∃ s', placeShip 1000 "s1" "g1" "anon-1" 0 0 2 true Team.blue exHitState
        = some (s', true) ∧
      ∀ c ∈ shipCellsFor 0 0 2 true,
        (s'.team Team.blue).grid c.x c.y
          = { occupied := true, hit := false, ship := some ("s1", "anon-1"),
              cooldownUntil := none } :=
  ⟨by decide, by decide,
    placement_ignores_hit_flag 1000 "s1" "g1" "anon-1" 0 0 2 true Team.blue exHitState
      (by decide) (by decide) ⟨0, 0⟩ (by decide) (by decide) (by decide)⟩

/-- `updateHeatLevels` in its active branch. -/
theorem updateHeatLevels_of_ne (cs : List Chunk)
    (h : (activeOf cs).isEmpty = false) :
    updateHeatLevels cs
      = cs.map (heatAssign (hotThresholdOf cs) (warmThresholdOf cs) (minThresholdOf cs)) := by
  unfold updateHeatLevels
  rw [if_neg (by simp [h])]

/-- Claim C4: when a FIRE brings a ship's hit count up to its cell count, every
cell of that ship and every cell of the Moore neighbourhood of its cells,
clipped to grid bounds (`inCooldownAreaB`), gets
`cooldownUntil = now + 10000 ms`; every cell outside that set keeps all its
fields unchanged; and a partial (non-destroying) hit applies no cooldown to
any cell. -/
theorem fire_destroy_applies_cooldown
    (now x y : Int) (team : Team) (s : BattleState)
    (ref : String × String) (ship0 : Ship)
    (hin : inBoundsB x y = true)
    (hhit : ((s.team (oppositeTeam team)).grid x y).hit = false)
    (hocc : ((s.team (oppositeTeam team)).grid x y).occupied = true)
    (href : ((s.team (oppositeTeam team)).grid x y).ship = some ref)
    (hmem : ship0 ∈ (s.team (oppositeTeam team)).ships)
    (huniq : ∀ sh ∈ (s.team (oppositeTeam team)).ships, sh.id = ref.1 ↔ sh = ship0)
    (hfired : (⟨x, y⟩ : Coord) ∈ ship0.cells) :
    ∃ s', fireShot now x y team s = some (s', true) ∧
      (ship0.hits + 1 = ship0.cells.length →
        ∀ p q : Int,
          (inCooldownAreaB ship0.cells p q = true →
            (s'.team (oppositeTeam team)).grid p q
              = { occupied := ((s.team (oppositeTeam team)).grid p q).occupied,
                  hit := if p = x ∧ q = y then true
                    else ((s.team (oppositeTeam team)).grid p q).hit,
                  ship := ((s.team (oppositeTeam team)).grid p q).ship,
                  cooldownUntil := some (now + DESTROYED_TERRITORY_COOLDOWN) }) ∧
          (inCooldownAreaB ship0.cells p q = false →
            (s'.team (oppositeTeam team)).grid p q
              = (s.team (oppositeTeam team)).grid p q)) ∧
      (ship0.hits + 1 ≠ ship0.cells.length →
        ∀ p q : Int,
          ((s'.team (oppositeTeam team)).grid p q).cooldownUntil
            = ((s.team (oppositeTeam team)).grid p q).cooldownUntil) := by
  have hid : ship0.id = ref.1 := (huniq ship0 hmem).mpr rfl
  have hcells : ship0.cells ≠ [] := List.ne_nil_of_mem hfired
  have hxyarea : inCooldownAreaB ship0.cells x y = true := by
    unfold inCooldownAreaB
    rw [hin]
    simp only [Bool.true_and]
    refine List.any_eq_true.mpr ⟨⟨x, y⟩, hfired, ?_⟩
    simp
  by_cases hdest : ship0.hits + 1 = ship0.cells.length
  · have hfilter : ((s.team (oppositeTeam team)).ships.filter
        (fun sh => sh.id == ref.1
          && decide (sh.hits + 1 = sh.cells.length))).getLast? = some ship0 := by
      apply filter_getLast?_all_eq hmem
      · simp [hid, hdest]
      · intro b hb hpb
        simp only [Bool.and_eq_true, beq_iff_eq, decide_eq_true_eq] at hpb
        exact (huniq b hb).mp hpb.1
    refine ⟨_, fireShot_destroy_state now x y team s ref ship0 hin hhit hocc href
      hfilter hcells, ?_, fun h => absurd hdest h⟩
    intro _ p q
    constructor
    · intro harea
      simp only [team_modifyTeam_same, updateChunkActivity_target,
        applyCooldownToShipArea, harea, if_true]
      by_cases hpq : p = x ∧ q = y
      · obtain ⟨rfl, rfl⟩ := hpq
        simp [setCell]
      · simp [setCell, hpq]
    · intro harea
      have hpq : ¬(p = x ∧ q = y) := by
        rintro ⟨rfl, rfl⟩
        rw [hxyarea] at harea
        cases harea
      simp only [team_modifyTeam_same, updateChunkActivity_target,
        applyCooldownToShipArea, harea, Bool.false_eq_true, if_false]
      exact setCell_other _ _ _ _ _ _ hpq
  · have hfilter : ((s.team (oppositeTeam team)).ships.filter
        (fun sh => sh.id == ref.1
          && decide (sh.hits + 1 = sh.cells.length))).getLast? = none := by
      have hnil : (s.team (oppositeTeam team)).ships.filter
          (fun sh => sh.id == ref.1
            && decide (sh.hits + 1 = sh.cells.length)) = [] := by
        rw [List.filter_eq_nil_iff]
        intro b hb
        simp only [Bool.and_eq_true, beq_iff_eq, decide_eq_true_eq, not_and]
        intro hbid
        rw [(huniq b hb).mp hbid]
        exact hdest
      rw [hnil]
      rfl
    refine ⟨_, fireShot_partial_state now x y team s ref hin hhit hocc href hfilter,
      fun h => absurd h hdest, ?_⟩
    intro _ p q
    simp only [team_modifyTeam_same, updateChunkActivity_target]
    by_cases hpq : p = x ∧ q = y
    · obtain ⟨rfl, rfl⟩ := hpq
      simp [setCell]
    · simp [setCell, hpq]

/-- Witness for `fire_destroy_applies_cooldown`: red destroys blue's
single-cell ship at `(5, 5)`. -/
theorem fire_destroy_applies_cooldown_witness :
    inBoundsB 5 5 = true ∧
    ((exShipState.team (oppositeTeam Team.red)).grid 5 5).hit = false ∧
    ((exShipState.team (oppositeTeam Team.red)).grid 5 5).occupied = true ∧
    ((exShipState.team (oppositeTeam Team.red)).grid 5 5).ship
      = some ("sh1", "ow1") ∧
    exShip ∈ (exShipState.team (oppositeTeam Team.red)).ships ∧
    (∀ sh ∈ (exShipState.team (oppositeTeam Team.red)).ships,
      sh.id = ("sh1", "ow1").1 ↔ sh = exShip) ∧
    (⟨5, 5⟩ : Coord) ∈ exShip.cells ∧
    ∃ s', fireShot 1000 5 5 Team.red exShipState = some (s', true) :=
  ⟨by decide, by decide, by decide, by decide, by decide, by decide, by decide, by
    obtain ⟨s', hs', -, -⟩ := fire_destroy_applies_cooldown 1000 5 5 Team.red
      exShipState ("sh1", "ow1") exShip (by decide) (by decide) (by decide)
      (by decide) (by decide) (by decide) (by decide)
    exact ⟨s', hs'⟩⟩

/-- Claim C9 (amended): once a cell's `cooldownUntil` is set, no action ever
replaces it by a smaller timestamp — a destruction event rewrites it to
`now + DESTROYED_TERRITORY_COOLDOWN`, which is no smaller as long as the
stored value comes from an earlier destruction (`t ≤ now + 10000`); decay
ticks never touch any grid; but a successful ship placement over the cell —
possible only once its cooldown is falsy or expired (`t = 0 ∨ t < now`) —
erases the field entirely rather than replacing it by a later timestamp. -/
theorem cooldown_never_decreased
    (now : Int) (genId : String) (s : BattleState) (a : BattleAction)
    (team : Team) (p q t : Int)
    (hold : ((s.team team).grid p q).cooldownUntil = some t)
    (hb : t ≤ now + DESTROYED_TERRITORY_COOLDOWN) :
    (∀ r ∈ processAction now genId s a,
      (∀ t', ((r.1.team team).grid p q).cooldownUntil = some t' → t ≤ t') ∧
      (((r.1.team team).grid p q).cooldownUntil = none → t = 0 ∨ t < now)) ∧
    (∀ m : Int, (decayTick m s).blue.grid = s.blue.grid ∧
      (decayTick m s).red.grid = s.red.grid) := by
  constructor
  · intro r hr
    have hcases := processAction_cooldown_cases now genId s a r
      (Option.mem_def.mp hr) team p q
    constructor
    · intro t' ht'
      rcases hcases with hc | hc | hc
      · rw [ht', hold] at hc
        injection hc with hh
        exact le_of_eq hh.symm
      · rw [ht'] at hc
        injection hc with hh
        rw [hh]
        exact hb
      · rw [ht'] at hc
        exact absurd hc.1 (by simp)
    · intro hnone
      rcases hcases with hc | hc | hc
      · rw [hnone, hold] at hc
        cases hc
      · rw [hnone] at hc
        cases hc
      · have hok := hc.2
        unfold cooldownOkB at hok
        rw [hold] at hok
        simp only [Bool.or_eq_true, decide_eq_true_eq] at hok
        exact hok
  · intro m
    exact ⟨rfl, rfl⟩

/-- Claim C9, counterexample to the claim as stated: a successful ship
placement over a cell whose cooldown has expired replaces `cooldownUntil =
some 5000` by `none` — an erasure, not a replacement by a later (larger)
destruction timestamp. -/
theorem cooldown_erased_by_placement :
    ((exCooldownState.team Team.blue).grid 0 0).cooldownUntil = some 5000 ∧
    (placeShip 20000 "s1" "g1" "anon-1" 0 0 2 true Team.blue exCooldownState).map
        (fun r => (((r.1.team Team.blue).grid 0 0).cooldownUntil, r.2))
      = some (none, true) := by
  decide

/-- Witness for `cooldown_never_decreased` at a concrete input. -/
theorem cooldown_never_decreased_witness :
    ((exCooldownState.team Team.blue).grid 0 0).cooldownUntil = some 5000 ∧
    (5000 : Int) ≤ 20000 + DESTROYED_TERRITORY_COOLDOWN ∧
    (∀ r ∈ processAction 20000 "g1" exCooldownState exPlaceAction,
      (∀ t', ((r.1.team Team.blue).grid 0 0).cooldownUntil = some t' →
        (5000 : Int) ≤ t') ∧
      (((r.1.team Team.blue).grid 0 0).cooldownUntil = none →
        (5000 : Int) = 0 ∨ (5000 : Int) < 20000)) :=
  ⟨by decide, by decide,
    (cooldown_never_decreased 20000 "g1" exCooldownState exPlaceAction Team.blue
      0 0 5000 (by decide) (by decide)).1⟩

/-- Claim C5: heat-level recomputation equals the specification's reference
algorithm (`recomputeHeatLevelsSpec`, §4.3) on every chunk array, and it is
idempotent: recomputing twice with no intervening activity yields the same
assignment. -/
theorem updateHeatLevels_spec_and_idempotent (chunks : List Chunk) :
    updateHeatLevels chunks = recomputeHeatLevelsSpec chunks ∧
    updateHeatLevels (updateHeatLevels chunks) = updateHeatLevels chunks := by
  constructor
  · unfold updateHeatLevels recomputeHeatLevelsSpec
    by_cases hne : (activeOf chunks).isEmpty
    · rw [if_pos hne, if_pos hne]
    · rw [if_neg hne, if_neg hne]
      have hne' : (activeOf chunks).isEmpty = false := by simpa using hne
      have h02 : ((20 : ℚ) / 100) * ((activeOf chunks).length : ℚ)
          = ((activeOf chunks).length : ℚ) * 0.2 := by
        rw [mul_comm]
        norm_num
      have h03 : ((30 : ℚ) / 100) * ((activeOf chunks).length : ℚ)
          = ((activeOf chunks).length : ℚ) * 0.3 := by
        rw [mul_comm]
        norm_num
      have hmin : (3 / 100 : ℚ) * maxActivityCountOf (activeOf chunks)
          = minThresholdOf chunks := by
        unfold minThresholdOf
        rw [head_count_eq_max chunks hne', mul_comm]
        norm_num
      have hw : 0 < warmThresholdOf chunks := warmThresholdOf_pos hne'
      simp only [h02, h03, hmin]
      apply List.map_congr_left
      intro c _
      show heatAssign (hotThresholdOf chunks) (warmThresholdOf chunks)
          (minThresholdOf chunks) c = _
      unfold heatAssign hotThresholdOf warmThresholdOf hotCountOf warmCountOf
      by_cases h1 : ((sortedOf chunks).getD
          (min (max 1 (jsFloorNat (((activeOf chunks).length : ℚ) * 0.2)) - 1)
            ((sortedOf chunks).length - 1)) default).activityCount ≤ c.activityCount
          ∧ 0 < c.activityCount
      · simp only [if_pos h1]
      · simp only [if_neg h1]
        by_cases h2 : ((sortedOf chunks).getD
            (min (max 1 (jsFloorNat (((activeOf chunks).length : ℚ) * 0.2))
                + max 2 (jsFloorNat (((activeOf chunks).length : ℚ) * 0.3)) - 1)
              ((sortedOf chunks).length - 1)) default).activityCount ≤ c.activityCount
        · have h2' : ((sortedOf chunks).getD
              (min (max 1 (jsFloorNat (((activeOf chunks).length : ℚ) * 0.2))
                  + max 2 (jsFloorNat (((activeOf chunks).length : ℚ) * 0.3)) - 1)
                ((sortedOf chunks).length - 1)) default).activityCount ≤ c.activityCount
              ∧ 0 < c.activityCount := by
            refine ⟨h2, lt_of_lt_of_le ?_ h2⟩
            have := warmThresholdOf_pos hne'
            unfold warmThresholdOf hotCountOf warmCountOf at this
            exact this
          simp only [if_pos h2', if_pos h2]
        · have h2' : ¬(((sortedOf chunks).getD
              (min (max 1 (jsFloorNat (((activeOf chunks).length : ℚ) * 0.2))
                  + max 2 (jsFloorNat (((activeOf chunks).length : ℚ) * 0.3)) - 1)
                ((sortedOf chunks).length - 1)) default).activityCount ≤ c.activityCount
              ∧ 0 < c.activityCount) := fun hh => h2 hh.1
          simp only [if_neg h2', if_neg h2]
  · by_cases hne : (activeOf chunks).isEmpty
    · have h1 : updateHeatLevels chunks = chunks := by
        unfold updateHeatLevels
        rw [if_pos hne]
      rw [h1, h1]
    · have hne' : (activeOf chunks).isEmpty = false := by simpa using hne
      have hlen := activeOf_updateHeatLevels_length chunks hne'
      have hne2 : (activeOf (updateHeatLevels chunks)).isEmpty = false := by
        cases h2 : (activeOf (updateHeatLevels chunks)).isEmpty with
        | false => rfl
        | true =>
          exfalso
          have hz : (activeOf (updateHeatLevels chunks)).length = 0 := by
            rw [List.isEmpty_iff] at h2
            simp [h2]
          rw [hlen] at hz
          have : activeOf chunks = [] := List.length_eq_zero.mp hz
          rw [this] at hne'
          simp at hne'
      obtain ⟨hh, hw2, hm⟩ := thresholds_invariant chunks hne'
      rw [updateHeatLevels_of_ne _ hne2, hh, hw2, hm, updateHeatLevels_of_ne _ hne',
        List.map_map]
      apply List.map_congr_left
      intro c _
      exact heatAssign_idem _ _ _ c

/-- Claim C6: a decay tick never increases a chunk's `activityCount` and never
makes it negative; a chunk whose `lastActivity` is at most 60 s old is not
decayed; otherwise the count is multiplied by 0.999 (age < 120 s), 0.98
(age < 240 s) or 0.95, snapped to exactly 0 with `heatLevel` forced to 0 when
the result is below 0.1, and left unchanged when the change does not exceed
0.01; and a decay tick preserves the invariant "activityCount 0 implies
heatLevel 0". -/
theorem decay_tick_spec (now : Int) (c : Chunk) (chunks : List Chunk) :
    (0 ≤ c.activityCount →
      (decayChunk now c).activityCount ≤ c.activityCount ∧
      0 ≤ (decayChunk now c).activityCount) ∧
    (now - c.lastActivity ≤ 60000 → decayChunk now c = c) ∧
    (decayRateFor (now - c.lastActivity)
      = if now - c.lastActivity < 120000 then (0.999 : ℚ)
        else if now - c.lastActivity < 240000 then (0.98 : ℚ) else (0.95 : ℚ)) ∧
    (0 < c.activityCount → 60000 < now - c.lastActivity →
      decayChunk now c =
        if c.activityCount * decayRateFor (now - c.lastActivity) < 0.1 then
          { c with activityCount := 0, heatLevel := 0 }
        else if 0.01 < |c.activityCount * decayRateFor (now - c.lastActivity)
            - c.activityCount| then
          { c with activityCount :=
              c.activityCount * decayRateFor (now - c.lastActivity) }
        else c) ∧
    ((∀ d ∈ chunks, d.activityCount = 0 → d.heatLevel = 0) →
      ∀ d ∈ decayChunks now chunks, d.activityCount = 0 → d.heatLevel = 0) := by
  have hrate : 0 < decayRateFor (now - c.lastActivity) ∧
      decayRateFor (now - c.lastActivity) ≤ 1 := by
    unfold decayRateFor SUPER_SLOW_DECAY_RATE SLOW_DECAY_RATE FINAL_DECAY_RATE
    split_ifs <;> norm_num
  refine ⟨?_, ?_, ?_, ?_, ?_⟩
  · intro h0
    unfold decayChunk
    split_ifs with hpos htime hsnap heps
    · exact ⟨le_refl _, h0⟩
    · exact ⟨by simpa using h0, by simp⟩
    · exact ⟨by simpa using mul_le_of_le_one_right h0 hrate.2,
        by simpa using mul_nonneg h0 (le_of_lt hrate.1)⟩
    · exact ⟨le_refl _, h0⟩
    · exact ⟨le_refl _, h0⟩
  · intro htime
    unfold decayChunk
    split_ifs with hpos htime2 hsnap heps <;>
      first
      | rfl
      | exact absurd htime htime2
  · unfold decayRateFor ACTIVITY_LIFETIME ACTIVITY_EXTENDED_LIFETIME
      SUPER_SLOW_DECAY_RATE SLOW_DECAY_RATE FINAL_DECAY_RATE
    rfl
  · intro hpos htime
    have htime' : ¬(now - c.lastActivity ≤ NO_DECAY_PERIOD) := by
      unfold NO_DECAY_PERIOD
      omega
    unfold decayChunk
    rw [if_pos hpos, if_neg htime', if_pos hpos]
  · intro hinv d hd hcount
    unfold decayChunks at hd
    by_cases heq : chunks.map (decayChunk now) = chunks
    · rw [if_pos heq] at hd
      exact hinv d hd hcount
    · rw [if_neg heq] at hd
      unfold updateHeatLevels at hd
      by_cases hact : (activeOf (chunks.map (decayChunk now))).isEmpty
      · rw [if_pos hact] at hd
        obtain ⟨d₀, hd₀, rfl⟩ := List.mem_map.mp hd
        exact decayChunk_zero_heat now d₀ (hinv d₀ hd₀) hcount
      · rw [if_neg hact] at hd
        obtain ⟨d₁, hd₁, rfl⟩ := List.mem_map.mp hd
        have hm := @minThresholdOf_pos (chunks.map (decayChunk now))
          (by simpa using hact)
        refine heatAssign_zero _ _ _ hm d₁ ?_
        rwa [(heatAssign_fields _ _ _ d₁).2.2.2] at hcount

/-- Witness for `decay_tick_spec`, applying it at two concrete chunks: one in
the decaying regime (age 200 s, count 1, multiplier 0.98) and one inside the
grace period. -/
theorem decay_tick_spec_witness :
    ((0 : ℚ) ≤ exChunkOld.activityCount ∧
      ((decayChunk 200000 exChunkOld).activityCount ≤ exChunkOld.activityCount ∧
        (0 : ℚ) ≤ (decayChunk 200000 exChunkOld).activityCount)) ∧
    ((200000 : Int) - exChunkFresh.lastActivity ≤ 60000 ∧
      decayChunk 200000 exChunkFresh = exChunkFresh) ∧
    ((∀ d ∈ [exChunkOld], d.activityCount = 0 → d.heatLevel = 0) ∧
      ∀ d ∈ decayChunks 200000 [exChunkOld],
        d.activityCount = 0 → d.heatLevel = 0) := by
  refine ⟨⟨by decide, ?_⟩, ⟨by decide, ?_⟩, ⟨by decide, ?_⟩⟩
  · exact (decay_tick_spec 200000 exChunkOld []).1 (by decide)
  · exact (decay_tick_spec 200000 exChunkFresh []).2.1 (by decide)
  · exact (decay_tick_spec 200000 exChunkOld [exChunkOld]).2.2.2.2 (by decide)

/-- Claim C7: the derived stat `hitRatio` equals
`round(100 * destroyedShips / totalHits)` when `totalHits > 0`, where
`destroyedShips` counts the ships with `destroyed = true`, and equals 0 when
`totalHits = 0` — ships destroyed per shot, not hits per shot. -/
theorem hitRatio_is_ships_destroyed_per_shot (ships : List Ship) (totalHits : Nat) :
    (calculateAdditionalStats ships totalHits).2.2
      = if 0 < totalHits then
          jsRound (100 * ((ships.filter (fun ship => ship.destroyed)).length : ℚ)
            / (totalHits : ℚ))
        else 0 := by
  have key : ((ships.filter (fun ship => ship.destroyed)).length : ℚ) / (totalHits : ℚ) * 100
      = 100 * ((ships.filter (fun ship => ship.destroyed)).length : ℚ) / (totalHits : ℚ) := by
    ring
  unfold calculateAdditionalStats
  split
  · exact congrArg jsRound key
  · rfl

/-- Claim C2 (amended): firing at an in-bounds, already-hit cell returns
`false` and leaves every cell, every ship and every stat of both teams
unchanged, but it does NOT leave the whole state unchanged: the target team's
chunk activity is still recorded (the chunk containing `(x, y)` is bumped and
heat levels are recomputed) because activity recording precedes the hit-check
short-circuit. -/
theorem fire_already_hit_effect
    (now : Int) (x y : Int) (team : Team) (s : BattleState)
    (hin : inBoundsB x y = true)
    (hhit : ((s.team (oppositeTeam team)).grid x y).hit = true) :
    fireShot now x y team s = some (updateChunkActivity now x y team s, false) ∧
    (updateChunkActivity now x y team s).team team = s.team team ∧
    ((updateChunkActivity now x y team s).team (oppositeTeam team)).grid
      = (s.team (oppositeTeam team)).grid ∧
    ((updateChunkActivity now x y team s).team (oppositeTeam team)).ships
      = (s.team (oppositeTeam team)).ships ∧
    ((updateChunkActivity now x y team s).team (oppositeTeam team)).stats
      = (s.team (oppositeTeam team)).stats ∧
    ((updateChunkActivity now x y team s).team (oppositeTeam team)).chunks
      = recordChunkActivity now x y (s.team (oppositeTeam team)).chunks := by
  refine ⟨?_, updateChunkActivity_team now x y team s, ?_, ?_, ?_, ?_⟩
  · unfold fireShot processAction
    simp only [Option.getD_some, cellAt?_eq_some _ _ _ hin, hhit, if_true]
  all_goals rw [updateChunkActivity_target]

/-- Claim C2, counterexample to the claim as stated: firing red at the
already-hit blue cell `(0, 0)` of `exHitState` returns `false`, but the state
after does not equal the state before — the blue chunk containing `(0, 0)`
has its `activityCount` changed from 0 to 1 by the activity recording that
precedes the hit check. -/
theorem fire_already_hit_not_noop :
    (exHitState.blue.grid 0 0).hit = true ∧
    (fireShot 1000 0 0 Team.red exHitState).map (fun r => r.2) = some false ∧
    (fireShot 1000 0 0 Team.red exHitState).map
        (fun r => (r.1.blue.chunks.getD 0 default).activityCount)
      ≠ some (exHitState.blue.chunks.getD 0 default).activityCount ∧
    (exHitState.blue.chunks.getD 0 default).activityCount = 0 ∧
    (fireShot 1000 0 0 Team.red exHitState).map
        (fun r => (r.1.blue.chunks.getD 0 default).activityCount) = some 1 := by
  decide

/-- Witness for `fire_already_hit_effect` at a concrete input. -/
theorem fire_already_hit_effect_witness :
    inBoundsB 0 0 = true ∧
    ((exHitState.team (oppositeTeam Team.red)).grid 0 0).hit = true ∧
    fireShot 1000 0 0 Team.red exHitState
      = some (updateChunkActivity 1000 0 0 Team.red exHitState, false) :=
  ⟨by decide, by decide,
    (fire_already_hit_effect 1000 0 0 Team.red exHitState (by decide) (by decide)).1⟩

end Battleship
